import Mathlib

/-!
# tm4c_operatingSys: task scheduler, test module and statistics reporter

A shallow embedding of `taskScheduler/taskScheduler.h`, `testModule/testModule.cpp`,
`testModule/testModule.h` and `main.cpp`.

Conventions of the embedding

* Memory bytes are natural numbers below 256; a buffer is a `List Nat`, lowest address first.
* A C pointer that may be null is an `Option`.
* Machine integers are `Nat` / `Int`; where a width matters the reduction is written out.
* Code of the repository that is not among the sources at hand (`linkedList.h`,
  `taskScheduler.cpp`, `eventLog.h`, `HAL/hal.h`, `libs/myLib.h`, `tsProfiler.h`) is modelled
  from the specification; every such definition says so in its doc comment.
* A module callback is a function of the clock value, of the callback record of its module, of
  the event log and of the serial port: a callback that re-enters the scheduler is outside the
  model.
* The main loop makes one pass of `TS_GlobalCheck` per tick of 1 ms, and a callback takes no
  time.
-/

namespace TM4C

/-! ## Definitions -/

/-! ### Object representation of the argument types -/

/-- A fixed-size C type `T` as seen by `(void*)&arg, sizeof(arg)`: its size and the bytes of
the object representation of a value, lowest address first. -/
structure CType (α : Type) where
  /-- The value of `sizeof(T)`. -/
  size : Nat
  /-- Bytes of the object holding the value. -/
  repr : α → List Nat
  /-- The object occupies exactly `sizeof(T)` bytes. -/
  repr_length : ∀ v, (repr v).length = size

/-- The type `int16_t`: two bytes, two's complement, little endian (Cortex-M4). -/
def int16_t : CType Int where
  size := 2
  repr := fun v => [(v % 65536).toNat % 256, (v % 65536).toNat / 256 % 256]
  repr_length := fun _ => rfl

/-- The type `uint8_t`: one byte. -/
def uint8_t : CType Nat where
  size := 1
  repr := fun n => [n % 256]
  repr_length := fun _ => rfl

/-- The type `float`, a value being given by its 32-bit pattern: four bytes, little endian. -/
def float : CType Nat where
  size := 4
  repr := fun w => [w % 256, w / 256 % 256, w / 65536 % 256, w / 16777216 % 256]
  repr_length := fun _ => rfl

/-- The value an `int16_t` object holds when its two bytes are `b0` (low address) and `b1`. -/
def int16_of_bytes (b0 b1 : Nat) : Int :=
  if b0 % 256 + 256 * (b1 % 256) < 32768 then
    ((b0 % 256 + 256 * (b1 % 256) : Nat) : Int)
  else
    ((b0 % 256 + 256 * (b1 % 256) : Nat) : Int) - 65536

/-- The value a `uint8_t` object holds when its byte is `b0`. -/
def uint8_of_bytes (b0 : Nat) : Nat := b0 % 256

/-- The bit pattern a `float` object holds when its bytes are `b0 .. b3`. -/
def float_of_bytes (b0 b1 b2 b3 : Nat) : Nat :=
  b0 % 256 + 256 * (b1 % 256) + 65536 * (b2 % 256) + 16777216 * (b3 % 256)

/-! ### Task entries and the scheduler object -/

/-- Modelled from the spec: the performance counters of a task (`tsProfiler.h` is not among
the sources): `runs`, accumulated runtime in two parts, `start_miss_count` and
`start_miss_total`, under the member names `main.cpp` reads them by. -/
structure _perf where
  taskRuns : Nat
  accRT : Nat
  msAcc : Nat
  startTimeMissCnt : Nat
  startTimeMissTot : Nat
deriving DecidableEq, Repr

/-- Modelled from the spec: class `TaskEntry` of `linkedList.h` (not among the sources), with
the attributes of the data model: module UID, service ID, PID, timestamp, period, remaining
repeats, argument bytes and performance counters. -/
structure TaskEntry where
  _libuid : Nat
  _task : Nat
  _PID : Nat
  _timestamp : Int
  _period : Int
  _repeats : Int
  _args : List Nat
  _perf : _perf
deriving DecidableEq, Repr

/-- Modelled from the spec: `TaskEntry::AddArg(void* arg, argLen)` of `linkedList.h` (not among
the sources). The argument buffer "grows by byte-wise append": the `argLen` bytes found at `arg`
are put after the bytes already stored. -/
def TaskEntry.AddArg (te : TaskEntry) (arg : List Nat) (argLen : Nat) : TaskEntry :=
  { te with _args := te._args ++ arg.take argLen }

/-- Modelled from the spec: the interrupt master switch behind `HAL_BOARD_InterruptEnable`
(`HAL/hal.h` is not among the sources). -/
structure Board where
  /-- Whether interrupts are enabled. -/
  intEnabled : Bool
deriving DecidableEq, Repr

/-- Modelled from the spec: `HAL_BOARD_InterruptEnable(enable)`, the `interrupts_set` of the
HAL: sets the switch and hands back the prior state. -/
def HAL_BOARD_InterruptEnable (enable : Bool) (b : Board) : Bool × Board :=
  (b.intEnabled, { b with intEnabled := enable })

/-- The data members of class `TaskScheduler` that the member functions at hand use:
`_taskLog`, the queue of tasks (the nodes of the linked list, head first), and `_lastIndex`,
the pointer to the node added last, `none` being the null pointer and `some i` the node at
position `i` of the queue. A position past the end stands for a pointer to a node that is no
longer queued. -/
structure TaskScheduler where
  _taskLog : List TaskEntry
  _lastIndex : Option Nat
deriving DecidableEq, Repr

/-- The call `_lastIndex->data.AddArg(arg, argLen)` on the node at position `i`. -/
def TaskScheduler.nodeAddArg (q : List TaskEntry) (i : Nat) (arg : List Nat) (argLen : Nat) :
    List TaskEntry :=
  match q[i]? with
  | some te => q.set i (te.AddArg arg argLen)
  | none => q

/-- The member template `TaskScheduler::AddArg<T>(T arg)` (taskScheduler.h:195-206):
interrupts off, append `sizeof(arg)` bytes of `arg` to the node `_lastIndex` points to unless
the pointer is null, interrupts on. -/
def TaskScheduler.AddArg {α : Type} (T : CType α) (arg : α) (ts : TaskScheduler) (b : Board) :
    TaskScheduler × Board :=
  let b1 := (HAL_BOARD_InterruptEnable false b).2
  let ts1 : TaskScheduler :=
    match ts._lastIndex with
    | some i => { ts with _taskLog := TaskScheduler.nodeAddArg ts._taskLog i (T.repr arg) T.size }
    | none => ts
  let b2 := (HAL_BOARD_InterruptEnable true b1).2
  (ts1, b2)

/-! ### Status macros, event log, serial port -/

/-- Modelled from the spec: the macro `STATUS_OK` of `libs/myLib.h` (not among the sources);
"0 means OK". -/
def STATUS_OK : Int := 0

/-- The macro `STATUS_ARG_ERR` of `libs/myLib.h` (not among the sources), taken as a
parameter: some status value other than `STATUS_OK`. -/
structure myLib where
  STATUS_ARG_ERR : Int
  STATUS_ARG_ERR_ne_OK : STATUS_ARG_ERR ≠ STATUS_OK

/-- Modelled from the spec: the enum of event kinds of `init/eventLog.h` (not among the
sources), in the order the specification lists them. -/
inductive EVENTS where
  | EVENT_UNINITIALIZED
  | EVENT_STARTUP
  | EVENT_INITIALIZED
  | EVENT_OK
  | EVENT_HANG
  | EVENT_ERROR
  | EVENT_PRIOINVERSION
deriving DecidableEq, Repr

export EVENTS (EVENT_UNINITIALIZED EVENT_STARTUP EVENT_INITIALIZED EVENT_OK EVENT_HANG
  EVENT_ERROR EVENT_PRIOINVERSION)

/-- Modelled from the spec: an event record `(timestamp, module_uid, service_id, event_kind)`,
under the member names `main.cpp` reads it by. The service ID is kept as the integer handed to
the emitter (the module's own life-cycle events pass -1). -/
structure _eventEntry where
  timestamp : Nat
  libUID : Nat
  taskID : Int
  event : EVENTS
deriving DecidableEq, Repr

/-- Modelled from the spec: class `EventLog` of `init/eventLog.h` (not among the sources): the
on/off gate and the records, oldest first. -/
structure EventLog where
  recording : Bool
  log : List _eventEntry
deriving DecidableEq, Repr

/-- Modelled from the spec: `EventLog::RecordEvents(enable)`, the `start(enabled)` of the
specification: "gate on/off". -/
def EventLog.RecordEvents (enable : Bool) (l : EventLog) : EventLog :=
  { l with recording := enable }

/-- Modelled from the spec: `EventLog::EmitEvent(libUID, taskID, event)`, the `emit` of the
specification: "appends `(NOW, uid, service_id, kind)`"; "when off, `emit` is a no-op". -/
def EventLog.EmitEvent (now : Nat) (libUID : Nat) (taskID : Int) (event : EVENTS)
    (l : EventLog) : EventLog :=
  if l.recording then { l with log := l.log ++ [⟨now, libUID, taskID, event⟩] } else l

/-- What `DEBUG_WRITE` sends to the serial port, one constructor per format string of the test
module, carrying the values printed. -/
inductive DebugLine where
  /-- The line "I'm service 0 printing int16_t: %d". -/
  | service0 (intToPrint : Int)
  /-- The line "I'm service 1 printing a string: %s", with the characters before the NUL. -/
  | service1 (chars : List Nat)
  /-- The line "I'm service 1 printing a string but there was an error with you string". -/
  | service1_error
  /-- The line "I'm service 2 printing int16_t: %d.%d", with the bit pattern of the float. -/
  | service2 (floatToPrint : Nat)
deriving DecidableEq, Repr

/-- What a module callback reaches besides its own callback record: the event log and the
serial port. -/
structure Env where
  evLog : EventLog
  uart : List DebugLine
deriving DecidableEq, Repr

/-! ### Callback records -/

/-- The data members of `struct _kernelEntry` (taskScheduler.h:83-90). `args` is a pointer:
`none` is null, `some m` gives the byte `m i` found at `args + i`. -/
structure KernelArgs where
  serviceID : Nat
  args : Option (Nat → Nat)
  argN : Nat
  retVal : Int

/-- A callback `void (*)(void)`: run at a given value of `msSinceStartup`, it works on the
callback record of its module, on the event log and on the serial port. -/
abbrev CallBackFunc := Nat → KernelArgs → Env → KernelArgs × Env

/-- The type `struct _kernelEntry` (taskScheduler.h:83-90): the data members and the function
pointer `callBackFunc`, `none` being null. -/
structure _kernelEntry extends KernelArgs where
  callBackFunc : Option CallBackFunc

/-! ### The test module -/

/-- The macro `TESTMOD_UID` (testModule.h:19). -/
def TESTMOD_UID : Nat := 3
/-- The macro `TESTMOD_T_PRINTINT` (testModule.h:21). -/
def TESTMOD_T_PRINTINT : Nat := 0
/-- The macro `TESTMOD_T_PRINTSTR` (testModule.h:22). -/
def TESTMOD_T_PRINTSTR : Nat := 1
/-- The macro `TESTMOD_T_PRINTFLOAT` (testModule.h:23). -/
def TESTMOD_T_PRINTFLOAT : Nat := 2

/-- The macro `EMIT_EV(X, Y)` (testModule.cpp:18): `EventLog::EmitEvent(TESTMOD_UID, X, Y)`. -/
def EMIT_EV (now : Nat) (X : Int) (Y : EVENTS) (l : EventLog) : EventLog :=
  EventLog.EmitEvent now TESTMOD_UID X Y l

/-- The bytes `memcpy(dst, src, n)` puts into `dst`. -/
def memcpy (src : Nat → Nat) (n : Nat) : List Nat := (List.range n).map src

/-- The function `TestMod::PrintInt16` (testModule.cpp:175-182): `N` lines, `STATUS_OK`. -/
def TestMod.PrintInt16 (intToPrint : Int) (N : Nat) (uart : List DebugLine) :
    Int × List DebugLine :=
  (STATUS_OK, uart ++ List.replicate N (DebugLine.service0 intToPrint))

/-- The loop of `TestMod::PrintString` (testModule.cpp:197-201) with `remaining` iterations
to go, that is at `i = sizeLimit - remaining`: the value of `i` when the loop is left. -/
def TestMod.PrintString.scan (stringToPrint : Nat → Nat) (sizeLimit : Nat) : Nat → Nat
  | 0 => sizeLimit
  | remaining + 1 =>
    if stringToPrint (sizeLimit - (remaining + 1)) = 0 then sizeLimit - (remaining + 1)
    else TestMod.PrintString.scan stringToPrint sizeLimit remaining

/-- The function `TestMod::PrintString` (testModule.cpp:190-215); `stringToPrint` gives the
character at each offset from the pointer. -/
def TestMod.PrintString (L : myLib) (stringToPrint : Nat → Nat) (uart : List DebugLine) :
    Int × List DebugLine :=
  let sizeLimit := 20
  let i := TestMod.PrintString.scan stringToPrint sizeLimit sizeLimit
  if i + 1 < sizeLimit then
    (STATUS_OK, uart ++ [DebugLine.service1 ((List.range i).map stringToPrint)])
  else
    (L.STATUS_ARG_ERR, uart ++ [DebugLine.service1_error])

/-- The function `TestMod::PrintFloat` (testModule.cpp:222-227). -/
def TestMod.PrintFloat (floatToPrint : Nat) (uart : List DebugLine) : Int × List DebugLine :=
  (STATUS_OK, uart ++ [DebugLine.service2 floatToPrint])

/-- The switch of `_TESTMOD_KernelCallback` (testModule.cpp:41-104) on a non-null `args`:
the service selected by `serviceID` is run on the arguments copied out of `args` and its return
value stored in `retVal`; any other `serviceID` falls through. -/
def _TESTMOD_KernelCallback.service (L : myLib) (ker : KernelArgs) (args : Nat → Nat)
    (uart : List DebugLine) : KernelArgs × List DebugLine :=
  if ker.serviceID = TESTMOD_T_PRINTINT then
    let intToPrint := int16_of_bytes ((memcpy args 2).getD 0 0) ((memcpy args 2).getD 1 0)
    let numOfLines := uint8_of_bytes ((memcpy (fun i => args (i + 2)) 1).getD 0 0)
    let r := TestMod.PrintInt16 intToPrint numOfLines uart
    ({ ker with retVal := r.1 }, r.2)
  else if ker.serviceID = TESTMOD_T_PRINTSTR then
    let strToPrint := memcpy args 20
    let r := TestMod.PrintString L (fun i => strToPrint.getD i 0) uart
    ({ ker with retVal := r.1 }, r.2)
  else if ker.serviceID = TESTMOD_T_PRINTFLOAT then
    let b := memcpy args 4
    let floatToPrint := float_of_bytes (b.getD 0 0) (b.getD 1 0) (b.getD 2 0) (b.getD 3 0)
    let r := TestMod.PrintFloat floatToPrint uart
    ({ ker with retVal := r.1 }, r.2)
  else
    (ker, uart)

/-- The function `_TESTMOD_KernelCallback` (testModule.cpp:27-112): return at once on a null
`args`; otherwise run the service, then emit `EVENT_OK` or `EVENT_ERROR` for `serviceID`
according to `retVal`. -/
def _TESTMOD_KernelCallback (L : myLib) : CallBackFunc := fun now ker env =>
  match ker.args with
  | none => (ker, env)
  | some args =>
    let r := _TESTMOD_KernelCallback.service L ker args env.uart
    if r.1.retVal = STATUS_OK then
      (r.1, { evLog := EMIT_EV now r.1.serviceID EVENT_OK env.evLog, uart := r.2 })
    else
      (r.1, { evLog := EMIT_EV now r.1.serviceID EVENT_ERROR env.evLog, uart := r.2 })

/-! ### Argument buffers as seen through the `args` pointer -/

/-- The memory found at a pointer to a buffer that holds `bytes`: these bytes, and behind
them whatever `beyond` has at that offset. -/
def bufferAt (bytes : List Nat) (beyond : Nat → Nat) : Nat → Nat :=
  fun i => bytes.getD i (beyond i)

/-- The 17 bytes `main` hands to `AddArgs` for the task at 4000 ms (main.cpp:232): the 16
characters of "Printing at T+4s" and the NUL written in the literal. -/
def main.payload4s : List Nat :=
  [80, 114, 105, 110, 116, 105, 110, 103, 32, 97, 116, 32, 84, 43, 52, 115, 0]

/-- The 35 bytes `main` hands to `AddArgs` for the task at 9000 ms (main.cpp:238): the 33
characters of "Printing a slightly longer string", the NUL that ends the literal, and the
byte `over` that lies behind the literal. -/
def main.payload9s (over : Nat) : List Nat :=
  [80, 114, 105, 110, 116, 105, 110, 103, 32, 97, 32, 115, 108, 105, 103, 104, 116, 108, 121,
   32, 108, 111, 110, 103, 101, 114, 32, 115, 116, 114, 105, 110, 103, 0, over]

/-- A 20-byte buffer holding a string of 19 characters 'a' and its terminating NUL. -/
def buffer19 : Nat → Nat := fun i => if i < 19 then 97 else 0

/-! ### The statistics reporter: averages -/

/-- The macro `NUM_OF_MODULES` (hwconfig.h:36). -/
def NUM_OF_MODULES : Nat := 10

/-- The state of the program: `msSinceStartup` (taskScheduler.h:123), the tick step handed to
`TaskScheduler::InitHW`, the interrupt switch, the scheduler object, the PID given to the next
task, the callback registry (module UID to registered callback record, `none` where nothing is
registered), whether the static `TestMod` instance of `TestMod::GetI` has been constructed,
and the event log with the serial port. -/
structure Sys where
  msSinceStartup : Nat
  timeStepMS : Nat
  hal : Board
  ts : TaskScheduler
  nextPID : Nat
  kernelVector : Nat → Option _kernelEntry
  testModBuilt : Bool
  env : Env

/-- The state at reset: clock at 0, nothing queued, nothing registered, log empty and off. -/
def Sys.reset : Sys where
  msSinceStartup := 0
  timeStepMS := 0
  hal := ⟨true⟩
  ts := ⟨[], none⟩
  nextPID := 0
  kernelVector := fun _ => none
  testModBuilt := false
  env := ⟨⟨false, []⟩, []⟩

/-- Modelled from the spec: `TS_RegCallback(arg, uid)` of `taskScheduler.cpp` (not among the
sources), the `register_module` of the specification: "installs a callback record at
`registry[uid]`. Re-registering overwrites." From then on the registry slot stands for the
record of the module. -/
def TS_RegCallback (arg : _kernelEntry) (uid : Nat) (s : Sys) : Sys :=
  { s with kernelVector := Function.update s.kernelVector uid (some arg) }

/-- Modelled from the spec: `TaskScheduler::ValidKernModule` of `taskScheduler.cpp` (not among
the sources), the `validate` of the specification: "a UID is valid iff it is in the range of
registered modules and its callback pointer is non-null". Hands back the record and the
callback of a valid UID. -/
def TaskScheduler.ValidKernModule (s : Sys) (libUID : Nat) :
    Option (_kernelEntry × CallBackFunc) :=
  if libUID < NUM_OF_MODULES then
    match s.kernelVector libUID with
    | some ker =>
      match ker.callBackFunc with
      | some cb => some (ker, cb)
      | none => none
    | none => none
  else none

/-- Modelled from the spec: the `insert(entry)` of the task queue (`linkedList.h` is not among
the sources): "placed in order; equal-timestamp entries go after existing ones; returns handle
used for subsequent arg appends". The handle is the position of the new node. -/
def LinkedList.AddSort (te : TaskEntry) : List TaskEntry → List TaskEntry × Nat
  | [] => ([te], 0)
  | x :: xs =>
    if te._timestamp < x._timestamp then (te :: x :: xs, 0)
    else ((x :: (LinkedList.AddSort te xs).1), (LinkedList.AddSort te xs).2 + 1)

/-- Modelled from the spec: the time convention of the scheduling calls: "`time ≥ 0`:
absolute milliseconds; `time < 0`: relative, interpreted as `NOW + |time|`". -/
def TaskScheduler.timeOf (now : Nat) (time : Int) : Int :=
  if time < 0 then (now : Int) + (-time) else time

/-- Modelled from the spec: `TaskScheduler::SyncTaskPer(libUID, taskID, time, period, rep)` of
`taskScheduler.cpp` (not among the sources), the `schedule_periodic` of the specification: a
new entry with the next PID is inserted in order and becomes the anchor; the call fails,
leaving the queue unchanged, when the UID is outside the range of the registry. -/
def TaskScheduler.SyncTaskPer (libUID taskID : Nat) (time period rep : Int) (s : Sys) : Sys :=
  if libUID < NUM_OF_MODULES then
    { s with
      ts := ⟨(LinkedList.AddSort
                ⟨libUID, taskID, s.nextPID, TaskScheduler.timeOf s.msSinceStartup time, period,
                 rep, [], ⟨0, 0, 0, 0, 0⟩⟩ s.ts._taskLog).1,
             some (LinkedList.AddSort
                ⟨libUID, taskID, s.nextPID, TaskScheduler.timeOf s.msSinceStartup time, period,
                 rep, [], ⟨0, 0, 0, 0, 0⟩⟩ s.ts._taskLog).2⟩
      nextPID := s.nextPID + 1 }
  else s

/-- Modelled from the spec: `TaskScheduler::SyncTask(libUID, taskID, time)` of
`taskScheduler.cpp` (not among the sources) with the defaults `periodic = false, rep = 0`, the
`schedule_once` of the specification: period 0. -/
def TaskScheduler.SyncTask (libUID taskID : Nat) (time : Int) (s : Sys) : Sys :=
  TaskScheduler.SyncTaskPer libUID taskID time 0 0 s

/-- The member template `AddArg<T>` called on the scheduler of the system. -/
def Sys.AddArg {α : Type} (T : CType α) (arg : α) (s : Sys) : Sys :=
  { s with ts := (s.ts.AddArg T arg s.hal).1, hal := (s.ts.AddArg T arg s.hal).2 }

/-- Modelled from the spec: the next fire time of a periodic task (step 8 of the dispatch
loop): "reinsert with `timestamp += period`"; "if the new timestamp is still < NOW, keep
advancing by `period` until it is not". For `period > 0` the least `timestamp + k * period`,
`k ≥ 1`, that is not below `now`. -/
def TS_GlobalCheck.nextFire (now : Nat) (timestamp period : Int) : Int :=
  if timestamp + period < (now : Int) then
    timestamp + period + period * (((now : Int) - (timestamp + period) + period - 1) / period)
  else timestamp + period

/-- Modelled from the spec: step 8 of the dispatch loop, the fate of an entry after its run:
`none` when it is retired (one-shot; periodic with `repeats_remaining` explicitly zero;
periodic whose count reaches zero on being decremented), otherwise the entry to reinsert. -/
def TS_GlobalCheck.reschedule (now : Nat) (te : TaskEntry) : Option TaskEntry :=
  if 0 < te._period then
    if te._repeats = 0 then none
    else if 0 < te._repeats then
      if te._repeats - 1 = 0 then none
      else some { te with _repeats := te._repeats - 1,
                          _timestamp := TS_GlobalCheck.nextFire now te._timestamp te._period }
    else some { te with _timestamp := TS_GlobalCheck.nextFire now te._timestamp te._period }
  else none

/-- Modelled from the spec: step 4 of the dispatch loop: "compute lateness
`miss = NOW - head.timestamp`. If `miss > 0`, increment `start_miss_count` and add `miss` to
`start_miss_total`". -/
def TS_GlobalCheck.lateness (now : Nat) (te : TaskEntry) : TaskEntry :=
  if 0 < (now : Int) - te._timestamp then
    { te with _perf := { te._perf with
        startTimeMissCnt := te._perf.startTimeMissCnt + 1
        startTimeMissTot := te._perf.startTimeMissTot + ((now : Int) - te._timestamp).toNat } }
  else te

/-- Modelled from the spec: step 7 of the dispatch loop, "update `runs` and accumulated
runtime": one more run, and no runtime added (see `TS_GlobalCheck`). -/
def TS_GlobalCheck.countRun (te : TaskEntry) : TaskEntry :=
  { te with _perf := { te._perf with taskRuns := te._perf.taskRuns + 1 } }

/-- Modelled from the spec: steps 4, 7 and 8 of the dispatch loop on the queue: what is queued
once `head` has been popped at time `now` from in front of `rest` and has run. -/
def TS_GlobalCheck.queueAfter (now : Nat) (head : TaskEntry) (rest : List TaskEntry) :
    List TaskEntry :=
  match TS_GlobalCheck.reschedule now
      (TS_GlobalCheck.countRun (TS_GlobalCheck.lateness now head)) with
  | some te3 => (LinkedList.AddSort te3 rest).1
  | none => rest

/-- Modelled from the spec: one iteration of the dispatch loop, `TS_GlobalCheck` of
`taskScheduler.cpp` (not among the sources), steps 1 to 9 of the specification. The result
carries the entry that was popped, if any. The callback runs to completion at the value of
`msSinceStartup` of the pop, so the runtime added to the counters is zero; the OK or ERROR
event of step 7 is the one the callback of the module emits (testModule.cpp:106-111), the
loop itself logging only the ERROR of an invalid UID (step 5). A reinserted entry does not
become the anchor, which stays cleared by the pop. `beyond` is what lies in memory behind the
copy of the argument bytes. -/
def TS_GlobalCheck (beyond : Nat → Nat) (s : Sys) : Sys × Option TaskEntry :=
  match s.ts._taskLog with
  | [] => (s, none)
  | head :: rest =>
    if (s.msSinceStartup : Int) < head._timestamp then (s, none)
    else
      match TaskScheduler.ValidKernModule s head._libuid with
      | none =>
        ({ s with
           ts := ⟨rest, none⟩
           env := { s.env with evLog := EventLog.EmitEvent s.msSinceStartup head._libuid
                                          head._task EVENT_ERROR s.env.evLog } },
         some head)
      | some (_, cb) =>
        let r := cb s.msSinceStartup
          ⟨head._task, some (bufferAt head._args beyond), head._args.length % 65536, 0⟩ s.env
        ({ s with
           ts := ⟨TS_GlobalCheck.queueAfter s.msSinceStartup head rest, none⟩
           kernelVector := Function.update s.kernelVector head._libuid
                             (some { toKernelArgs := r.1, callBackFunc := some cb })
           env := r.2 },
         some head)

/-- Modelled from the spec: the tick handler: "a periodic hardware interrupt increments a
process-wide millisecond counter `NOW` by a configured step". -/
def SysTickHandler (s : Sys) : Sys :=
  { s with msSinceStartup := s.msSinceStartup + s.timeStepMS }

/-- The loop `while(1) TS_GlobalCheck();` of `main` (main.cpp:261-263) run for `n` ticks, one
pass of the loop per tick. The result carries, oldest first, the value of `msSinceStartup` at
each pop together with the entry popped. -/
def mainLoop (beyond : Nat → Nat) : Nat → Sys → Sys × List (Nat × TaskEntry)
  | 0, s => (s, [])
  | n + 1, s =>
    ((mainLoop beyond n (SysTickHandler (TS_GlobalCheck beyond s).1)).1,
     ((TS_GlobalCheck beyond s).2.map (fun te => (s.msSinceStartup, te))).toList ++
       (mainLoop beyond n (SysTickHandler (TS_GlobalCheck beyond s).1)).2)

/-- What is kept of a pop for comparison: the time of the pop, then the scheduled timestamp,
the PID, the module UID and the service ID of the entry popped. -/
def popView (d : Nat × TaskEntry) : Nat × Int × Nat × Nat × Nat :=
  (d.1, d.2._timestamp, d.2._PID, d.2._libuid, d.2._task)

/-- The main loop seen event by event, a device for evaluating `mainLoop`: instead of polling
at every tick up to the time `stop`, go straight to the tick at which the head of the queue is
due, make the pass of the loop that pops it, and go on. `mainLoop_eq_eventLoop` shows that it
agrees with `mainLoop`. -/
def eventLoop (beyond : Nat → Nat) (stop : Nat) : Nat → Sys → Sys × List (Nat × TaskEntry)
  | 0, s => (s, [])
  | fuel + 1, s =>
    match s.ts._taskLog with
    | [] => ({ s with msSinceStartup := stop }, [])
    | head :: _ =>
      if max s.msSinceStartup head._timestamp.toNat < stop then
        ((eventLoop beyond stop fuel (SysTickHandler (TS_GlobalCheck beyond
            { s with msSinceStartup := max s.msSinceStartup head._timestamp.toNat }).1)).1,
         (max s.msSinceStartup head._timestamp.toNat, head) ::
           (eventLoop beyond stop fuel (SysTickHandler (TS_GlobalCheck beyond
              { s with msSinceStartup := max s.msSinceStartup head._timestamp.toNat }).1)).2)
      else ({ s with msSinceStartup := stop }, [])

/-- The queue seen event by event, a device for evaluating the pops of `mainLoop` when every
queued task targets a valid module: the times of the pops up to the time `stop` with the
entries popped, and the queue left. `mainLoop_eq_queueLoop` shows that it agrees with
`mainLoop`. -/
def queueLoop (stop : Nat) : Nat → Nat → List TaskEntry →
    List (Nat × TaskEntry) × List TaskEntry
  | 0, _, q => ([], q)
  | _ + 1, _, [] => ([], [])
  | fuel + 1, now, head :: rest =>
    if max now head._timestamp.toNat < stop then
      ((max now head._timestamp.toNat, head) ::
          (queueLoop stop fuel (max now head._timestamp.toNat + 1)
            (TS_GlobalCheck.queueAfter (max now head._timestamp.toNat) head rest)).1,
        (queueLoop stop fuel (max now head._timestamp.toNat + 1)
            (TS_GlobalCheck.queueAfter (max now head._timestamp.toNat) head rest)).2)
    else ([], head :: rest)

/-- An entry without its argument bytes, which play no part in when it is popped. -/
def TaskEntry.noArgs (te : TaskEntry) : TaskEntry := { te with _args := [] }

/-! ### The test module object and `main` -/

/-- The constructor `TestMod::TestMod` (testModule.cpp:232-237). -/
def TestMod.ctor (s : Sys) : Sys :=
  { s with
    testModBuilt := true
    env := { s.env with evLog := EMIT_EV s.msSinceStartup (-1) EVENT_UNINITIALIZED s.env.evLog } }

/-- The function `TestMod::GetI` (testModule.cpp:123-127): the static instance is constructed
by the first call. -/
def TestMod.GetI (s : Sys) : Sys :=
  if s.testModBuilt then s else TestMod.ctor s

/-- The function `TestMod::InitHW` (testModule.cpp:145-152). -/
def TestMod.InitHW (s : Sys) : Sys :=
  { s with env := { s.env with evLog := EMIT_EV s.msSinceStartup (-1) EVENT_STARTUP s.env.evLog } }

/-- The function `TestMod::InitSW` (testModule.cpp:157-167): the callback is stored in
`_kerInterface`, whose other members are those of a zero-initialised static object, the record
is registered under `TESTMOD_UID`, and the initialized event is emitted. -/
def TestMod.InitSW (L : myLib) (s : Sys) : Sys :=
  { TS_RegCallback ⟨⟨0, none, 0, 0⟩, some (_TESTMOD_KernelCallback L)⟩ TESTMOD_UID s with
    env := { s.env with
             evLog := EMIT_EV s.msSinceStartup (-1) EVENT_INITIALIZED s.env.evLog } }

/-- Modelled from the spec: `TaskScheduler::InitHW(timeStepMS)` of `taskScheduler.cpp` (not
among the sources), the `clock_init(step_ms)` of the specification: configures the tick. -/
def TaskScheduler.InitHW (timeStepMS : Nat) (s : Sys) : Sys :=
  { s with timeStepMS := timeStepMS }

/-- The macro `STATISTICS_UID` (main.cpp:46). -/
def STATISTICS_UID : Nat := 4
/-- The macro `STATISTICS_T_EVLOG` (main.cpp:49). -/
def STATISTICS_T_EVLOG : Nat := 1

/-- The function `STAT_InitSW` (main.cpp:167-172): the callback is stored in the record
`_kerInterface` of `main.cpp`, a zero-initialised global, and the record is registered under
`STATISTICS_UID`. What `STATISTICS_KerCallback` does to its record, to the event log and to
the serial port when it is called is left open: it is a parameter. -/
def STAT_InitSW (STATISTICS_KerCallback : CallBackFunc) (s : Sys) : Sys :=
  TS_RegCallback ⟨⟨0, none, 0, 0⟩, some STATISTICS_KerCallback⟩ STATISTICS_UID s

/-- Modelled from the spec: `TaskScheduler::AddArgs(arg, argLen)` of `taskScheduler.cpp` (not
among the sources), the `add_arg(bytes)` of the specification: the `argLen` bytes at `arg` are
appended to the entry added last; "no-op if no such entry exists". -/
def TaskScheduler.AddArgs (arg : List Nat) (argLen : Nat) (s : Sys) : Sys :=
  match s.ts._lastIndex with
  | some i => { s with ts := { s.ts with
      _taskLog := TaskScheduler.nodeAddArg s.ts._taskLog i arg argLen } }
  | none => s

/-- The initialisation in `main` (main.cpp:194-211): event logging is switched on, the tick is
set to 1 ms, the test module is initialised in hardware and software, the statistics module
in software. `EventLog::InitSW`, whose code is not among the sources, is taken to leave the
empty log of the reset state; the clock stays at 0 until the loop is entered. -/
def main.init (L : myLib) (STATISTICS_KerCallback : CallBackFunc) : Sys :=
  STAT_InitSW STATISTICS_KerCallback
    (TestMod.InitSW L (TestMod.GetI (TestMod.InitHW (TestMod.GetI (TaskScheduler.InitHW 1
      { Sys.reset with env := { Sys.reset.env with
          evLog := EventLog.RecordEvents true Sys.reset.env.evLog } })))))

/-- The object representation of the `float` nearest to 127.58, `0x42FF28F6`. -/
def main.float_127_58 : Nat := 1124018422

/-- The first two tasks of `main` (main.cpp:216-226) scheduled after the initialisation: the
float one-shot and the periodic integer task, each with its arguments. -/
def main.tasks12 (L : myLib) (STATISTICS_KerCallback : CallBackFunc) : Sys :=
  Sys.AddArg uint8_t 2 (Sys.AddArg int16_t (-8574)
    (TaskScheduler.SyncTaskPer TESTMOD_UID TESTMOD_T_PRINTINT 2000 5000 4
      (Sys.AddArg float main.float_127_58
        (TaskScheduler.SyncTask TESTMOD_UID TESTMOD_T_PRINTFLOAT 1000
          (main.init L STATISTICS_KerCallback)))))

/-- Modelled from the spec: the value of an event kind, the kinds being numbered from 0 in the
order of the enum (`init/eventLog.h` is not among the sources). -/
def EVENTS.toNat : EVENTS → Nat
  | EVENT_UNINITIALIZED => 0
  | EVENT_STARTUP => 1
  | EVENT_INITIALIZED => 2
  | EVENT_OK => 3
  | EVENT_HANG => 4
  | EVENT_ERROR => 5
  | EVENT_PRIOINVERSION => 6

/-- Modelled from the spec: the name of an event kind, as the specification lists the kinds:
"`event_kind ∈ { UNINITIALIZED, STARTUP, INITIALIZED, OK, HANG, ERROR, PRIO_INVERSION }`". -/
def EVENTS.name : EVENTS → String
  | EVENT_UNINITIALIZED => "UNINITIALIZED"
  | EVENT_STARTUP => "STARTUP"
  | EVENT_INITIALIZED => "INITIALIZED"
  | EVENT_OK => "OK"
  | EVENT_HANG => "HANG"
  | EVENT_ERROR => "ERROR"
  | EVENT_PRIOINVERSION => "PRIO_INVERSION"

/-- The character codes of a string. -/
def asciiOf (s : String) : List Nat := s.toList.map Char.toNat

/-- A row `char[15]` of `evName` initialised from a string literal: the bytes written in the
literal, the NUL that ends a literal, and zeros for the rest of the 15 bytes. -/
def STATISTICS_KerCallback.evName.row (written : List Nat) : List Nat :=
  written ++ 0 :: List.replicate (15 - (written.length + 1)) 0

/-- The table `evName` of `STATISTICS_KerCallback` (main.cpp:64-73); every literal is written
with a `\0` of its own at the end. -/
def STATISTICS_KerCallback.evName : List (List Nat) :=
  [STATISTICS_KerCallback.evName.row (asciiOf "UNINITIALIZED" ++ [0]),
   STATISTICS_KerCallback.evName.row (asciiOf "STARTUP" ++ [0]),
   STATISTICS_KerCallback.evName.row (asciiOf "INITIALIZED" ++ [0]),
   STATISTICS_KerCallback.evName.row (asciiOf "OK" ++ [0]),
   STATISTICS_KerCallback.evName.row (asciiOf "HANG" ++ [0]),
   STATISTICS_KerCallback.evName.row (asciiOf "ERROR" ++ [0]),
   STATISTICS_KerCallback.evName.row (asciiOf "PRIOINVERSION" ++ [0])]

/-- What `DEBUG_WRITE("%s", p)` prints for the bytes found at `p`: those before the first
NUL. -/
def cString (bytes : List Nat) : List Nat := bytes.takeWhile (fun b => b != 0)

/-! ### Removal, pop and sequences of queue operations -/

/-- Modelled from the spec: removal of the first entry that matches (`linkedList.h` is not
among the sources): "only the first match is removed". Hands back the queue left and the
position of the entry removed, if any. -/
def LinkedList.RemoveFirst (p : TaskEntry → Bool) : List TaskEntry → List TaskEntry × Option Nat
  | [] => ([], none)
  | x :: xs =>
    if p x then (xs, some 0)
    else (x :: (LinkedList.RemoveFirst p xs).1,
          (LinkedList.RemoveFirst p xs).2.map (fun k => k + 1))

/-- The anchor once the node at position `removed` has left a queue that is now `len` long:
it goes on pointing at the same node; when that very node was removed it points at no queued
node, which is a position past the end. A removal does not clear it. -/
def TaskScheduler.anchorAfterRemove (anchor : Option Nat) (removed : Option Nat) (len : Nat) :
    Option Nat :=
  match anchor, removed with
  | some i, some k => if k < i then some (i - 1) else if k = i then some len else some i
  | a, _ => a

/-- Modelled from the spec: `TaskScheduler::RemoveTask(libUID, taskID, arg, argLen)` of
`taskScheduler.cpp` (not among the sources), the `remove_matching(uid, sid, args?)` of the
specification: "removes first entry whose `(module_uid, service_id)` match and, if `args`
supplied, whose argument bytes match exactly". A null `arg` is `none`. -/
def TaskScheduler.RemoveTask (libUID taskID : Nat) (arg : Option (List Nat)) (argLen : Nat)
    (s : Sys) : Sys :=
  { s with ts :=
      ⟨(LinkedList.RemoveFirst
          (fun te => te._libuid == libUID && te._task == taskID &&
            (match arg with
             | some bytes => te._args == bytes.take argLen
             | none => true)) s.ts._taskLog).1,
       TaskScheduler.anchorAfterRemove s.ts._lastIndex
         (LinkedList.RemoveFirst
            (fun te => te._libuid == libUID && te._task == taskID &&
              (match arg with
               | some bytes => te._args == bytes.take argLen
               | none => true)) s.ts._taskLog).2
         (LinkedList.RemoveFirst
            (fun te => te._libuid == libUID && te._task == taskID &&
              (match arg with
               | some bytes => te._args == bytes.take argLen
               | none => true)) s.ts._taskLog).1.length⟩ }

/-- Modelled from the spec: `TaskScheduler::RemoveTask(PIDarg)` of `taskScheduler.cpp` (not
among the sources), the `remove_by_pid(pid)` of the specification: "removes first entry with
that PID; returns whether found". -/
def TaskScheduler.RemoveTaskPID (PIDarg : Nat) (s : Sys) : Sys × Bool :=
  ({ s with ts :=
      ⟨(LinkedList.RemoveFirst (fun te => te._PID == PIDarg) s.ts._taskLog).1,
       TaskScheduler.anchorAfterRemove s.ts._lastIndex
         (LinkedList.RemoveFirst (fun te => te._PID == PIDarg) s.ts._taskLog).2
         (LinkedList.RemoveFirst (fun te => te._PID == PIDarg) s.ts._taskLog).1.length⟩ },
   (LinkedList.RemoveFirst (fun te => te._PID == PIDarg) s.ts._taskLog).2.isSome)

/-- Modelled from the spec: `TaskScheduler::PopFront` of `taskScheduler.cpp` (not among the
sources), the `pop_head()` of the specification: "removes and returns earliest entry; clears
the last-inserted anchor". On an empty queue there is no entry to hand back. -/
def TaskScheduler.PopFront (s : Sys) : Sys × Option TaskEntry :=
  match s.ts._taskLog with
  | [] => ({ s with ts := ⟨[], none⟩ }, none)
  | head :: rest => ({ s with ts := ⟨rest, none⟩ }, some head)

/-- Modelled from the spec: `TaskScheduler::SyncTask(TaskEntry te)` of `taskScheduler.cpp` (not
among the sources), the `insert(entry)` of the specification on an entry built by the caller:
the entry is put in order with everything it carries, its PID and counters included, and
becomes the anchor; the call fails, leaving the queue unchanged, when the UID is outside the
range of the registry. -/
def TaskScheduler.SyncTask.entry (te : TaskEntry) (s : Sys) : Sys :=
  if te._libuid < NUM_OF_MODULES then
    { s with ts := ⟨(LinkedList.AddSort te s.ts._taskLog).1,
                    some (LinkedList.AddSort te s.ts._taskLog).2⟩ }
  else s

/-- Modelled from the spec: `TaskScheduler::SyncTask(libUID, taskID, time, periodic, rep)` of
`taskScheduler.cpp` (not among the sources) called with all five arguments. Neither the
declaration nor the specification tells which period a task asked for with `periodic = true`
is given: it is the parameter `period`; without `periodic` the period is 0. -/
def TaskScheduler.SyncTask.periodic (libUID taskID : Nat) (time : Int) (periodic : Bool)
    (rep : Int) (period : Int) (s : Sys) : Sys :=
  TaskScheduler.SyncTaskPer libUID taskID time (if periodic then period else 0) rep s

/-- A call on the scheduler, a pass of the dispatch loop or a tick of the clock, as the main
loop, the interrupt handlers and the callers of the scheduling interface may issue them one
after the other. -/
inductive QueueOp where
  /-- The call `SyncTask(libUID, taskID, time)`. -/
  | syncTask (libUID taskID : Nat) (time : Int)
  /-- The call `SyncTask(libUID, taskID, time, periodic, rep)`, which gives the task the
  period `period` when `periodic` is set. -/
  | syncTaskRep (libUID taskID : Nat) (time : Int) (periodic : Bool) (rep : Int) (period : Int)
  /-- The call `SyncTaskPer(libUID, taskID, time, period, rep)`. -/
  | syncTaskPer (libUID taskID : Nat) (time period rep : Int)
  /-- The call `SyncTask(te)`. -/
  | syncTaskEntry (te : TaskEntry)
  /-- The call `AddArgs(arg, argLen)`; `AddArg<T>(arg)` is this call on the bytes of `arg`. -/
  | addArgs (arg : List Nat) (argLen : Nat)
  /-- The call `RemoveTask(libUID, taskID, arg, argLen)`. -/
  | removeTask (libUID taskID : Nat) (arg : Option (List Nat)) (argLen : Nat)
  /-- The call `RemoveTask(PIDarg)`. -/
  | removeTaskPID (PIDarg : Nat)
  /-- The call `PopFront()`. -/
  | popFront
  /-- The call `TS_GlobalCheck()`, one pass of the dispatch loop, which pops the head when
  it is due and puts a periodic task back. -/
  | globalCheck (beyond : Nat → Nat)
  /-- A tick of the clock. -/
  | tick

/-- The state after one operation. -/
def QueueOp.apply (s : Sys) : QueueOp → Sys
  | QueueOp.syncTask libUID taskID time => TaskScheduler.SyncTask libUID taskID time s
  | QueueOp.syncTaskRep libUID taskID time periodic rep period =>
    TaskScheduler.SyncTask.periodic libUID taskID time periodic rep period s
  | QueueOp.syncTaskPer libUID taskID time period rep =>
    TaskScheduler.SyncTaskPer libUID taskID time period rep s
  | QueueOp.syncTaskEntry te => TaskScheduler.SyncTask.entry te s
  | QueueOp.addArgs arg argLen => TaskScheduler.AddArgs arg argLen s
  | QueueOp.removeTask libUID taskID arg argLen =>
    TaskScheduler.RemoveTask libUID taskID arg argLen s
  | QueueOp.removeTaskPID PIDarg => (TaskScheduler.RemoveTaskPID PIDarg s).1
  | QueueOp.popFront => (TaskScheduler.PopFront s).1
  | QueueOp.globalCheck beyond => (TS_GlobalCheck beyond s).1
  | QueueOp.tick => SysTickHandler s

/-- The state after a sequence of operations, first one first. -/
def runOps (ops : List QueueOp) (s : Sys) : Sys := ops.foldl QueueOp.apply s

/-- The insertion of `LinkedList.AddSort` on a queue whose entries each carry a mark: the
marked entry `x` is put where `AddSort` puts the entry `x.1`. -/
def LinkedList.AddSort.marked (x : TaskEntry × Nat) :
    List (TaskEntry × Nat) → List (TaskEntry × Nat)
  | [] => [x]
  | y :: ys =>
    if x.1._timestamp < y.1._timestamp then x :: y :: ys
    else y :: LinkedList.AddSort.marked x ys

/-- The removal of `LinkedList.RemoveFirst` on a queue whose entries each carry a mark. -/
def LinkedList.RemoveFirst.marked (p : TaskEntry → Bool) :
    List (TaskEntry × Nat) → List (TaskEntry × Nat)
  | [] => []
  | y :: ys => if p y.1 then ys else y :: LinkedList.RemoveFirst.marked p ys

/-- A run of the system with a record of the insertions: `sys` is the state of the system,
`queue` its task queue in which every entry carries the number of the operation that inserted
it (a scheduling call, or the pass of the dispatch loop that put a periodic task back), and
`step` is the number of operations made so far. -/
structure Traced where
  sys : Sys
  queue : List (TaskEntry × Nat)
  step : Nat

/-- The record at the start of a run that begins with an empty queue. -/
def Traced.start (s : Sys) : Traced := ⟨s, [], 0⟩

/-- The queue with insertion numbers after the call
`SyncTaskPer(libUID, taskID, time, period, rep)`: the new entry carries the number of this
operation. -/
def Traced.SyncTaskPer (libUID taskID : Nat) (time period rep : Int) (t : Traced) :
    List (TaskEntry × Nat) :=
  if libUID < NUM_OF_MODULES then
    LinkedList.AddSort.marked
      (⟨libUID, taskID, t.sys.nextPID, TaskScheduler.timeOf t.sys.msSinceStartup time, period,
        rep, [], ⟨0, 0, 0, 0, 0⟩⟩, t.step) t.queue
  else t.queue

/-- The queue with insertion numbers after a pass of the dispatch loop: the head leaves when
it is due, and a periodic task that is put back carries the number of this operation. -/
def Traced.TS_GlobalCheck (t : Traced) : List (TaskEntry × Nat) :=
  match t.queue with
  | [] => []
  | head :: rest =>
    if (t.sys.msSinceStartup : Int) < head.1._timestamp then head :: rest
    else
      match TaskScheduler.ValidKernModule t.sys head.1._libuid with
      | none => rest
      | some _ =>
        match TS_GlobalCheck.reschedule t.sys.msSinceStartup
            (TS_GlobalCheck.countRun (TS_GlobalCheck.lateness t.sys.msSinceStartup head.1)) with
        | some te3 => LinkedList.AddSort.marked (te3, t.step) rest
        | none => rest

/-- The record after one operation: the system makes the operation, and the queue with
insertion numbers follows it, entries that stay keeping their number. -/
def QueueOp.applyTraced (t : Traced) (op : QueueOp) : Traced :=
  ⟨QueueOp.apply t.sys op,
   (match op with
    | QueueOp.syncTask libUID taskID time => Traced.SyncTaskPer libUID taskID time 0 0 t
    | QueueOp.syncTaskRep libUID taskID time periodic rep period =>
      Traced.SyncTaskPer libUID taskID time (if periodic then period else 0) rep t
    | QueueOp.syncTaskPer libUID taskID time period rep =>
      Traced.SyncTaskPer libUID taskID time period rep t
    | QueueOp.syncTaskEntry te =>
      if te._libuid < NUM_OF_MODULES then LinkedList.AddSort.marked (te, t.step) t.queue
      else t.queue
    | QueueOp.addArgs arg argLen =>
      (TaskScheduler.AddArgs arg argLen t.sys).ts._taskLog.zip (t.queue.map Prod.snd)
    | QueueOp.removeTask libUID taskID arg argLen =>
      LinkedList.RemoveFirst.marked
        (fun te => te._libuid == libUID && te._task == taskID &&
          (match arg with
           | some bytes => te._args == bytes.take argLen
           | none => true)) t.queue
    | QueueOp.removeTaskPID PIDarg =>
      LinkedList.RemoveFirst.marked (fun te => te._PID == PIDarg) t.queue
    | QueueOp.popFront => t.queue.tail
    | QueueOp.globalCheck _ => Traced.TS_GlobalCheck t
    | QueueOp.tick => t.queue),
   t.step + 1⟩

/-- The record after a sequence of operations, first one first. -/
def runTraced (ops : List QueueOp) (t : Traced) : Traced := ops.foldl QueueOp.applyTraced t

/-- The order of the task queue between an entry `a` and an entry `b` that stands behind it,
each with its insertion number: the timestamp of `a` is not after that of `b`, and at equal
timestamps `a` was inserted first. -/
def Traced.before (a b : TaskEntry × Nat) : Prop :=
  a.1._timestamp ≤ b.1._timestamp ∧ (a.1._timestamp = b.1._timestamp → a.2 < b.2)

/-- The record of a run: the marked queue is the queue of the system, it is in order, and
every insertion number is the number of a past operation. -/
def Traced.Inv (t : Traced) : Prop :=
  t.queue.map Prod.fst = t.sys.ts._taskLog ∧ t.queue.Pairwise Traced.before ∧
    ∀ y ∈ t.queue, y.2 < t.step

/-! ### The statistics reporter: the loop over the queued tasks -/

/-- Modelled from the spec: `TaskScheduler::NumOfTasks` of `taskScheduler.cpp` (not among the
sources): the number of queued tasks, as the `uint32_t` the declaration returns. -/
def TaskScheduler.NumOfTasks (q : List TaskEntry) : Nat := q.length % 4294967296

/-- Modelled from the spec: `TaskScheduler::FetchNextTask(fromStart)` of `taskScheduler.cpp`
(not among the sources), the `iterate()` of the specification: "non-destructive traversal in
scheduled order". `cursor` is the position of the entry to hand out next; `fromStart` puts it
back on the head; past the last entry the call hands back the null pointer. The result carries
the new cursor. -/
def TaskScheduler.FetchNextTask (fromStart : Bool) (q : List TaskEntry) (cursor : Nat) :
    Option TaskEntry × Nat :=
  (q[if fromStart then 0 else cursor]?, (if fromStart then 0 else cursor) + 1)

/-- The loop of the service `STATISTICS_T_TSCH` (main.cpp:92-133) from the value `i` of the
`uint8_t` counter on, for at most `fuel` iterations: the calls of `FetchNextTask` it makes,
each with its argument `i==0` and the task it reports, and whether the loop has been left (by
its condition `i < Ntasks` or by the `break` on a null task) within these iterations. -/
def STATISTICS_KerCallback.TSCH (q : List TaskEntry) (Ntasks : Nat) :
    Nat → Nat → Nat → List (Bool × TaskEntry) × Bool
  | 0, _, _ => ([], false)
  | fuel + 1, i, cursor =>
    if i < Ntasks then
      match (TaskScheduler.FetchNextTask (i == 0) q cursor).1 with
      | none => ([], true)
      | some task =>
        ((i == 0, task) ::
            (STATISTICS_KerCallback.TSCH q Ntasks fuel ((i + 1) % 256)
              (TaskScheduler.FetchNextTask (i == 0) q cursor).2).1,
          (STATISTICS_KerCallback.TSCH q Ntasks fuel ((i + 1) % 256)
              (TaskScheduler.FetchNextTask (i == 0) q cursor).2).2)
    else ([], true)

/-- A queue of 256 one-shot tasks of the test module, PIDs and timestamps 0 to 255. -/
def queue256 : List TaskEntry :=
  (List.range 256).map (fun p => ⟨3, 2, p, p, 0, 0, [], ⟨0, 0, 0, 0, 0⟩⟩)

/-! ## Theorems -/

theorem nodeAddArg_length (q : List TaskEntry) (i : Nat) (arg : List Nat) (n : Nat) :
    (TaskScheduler.nodeAddArg q i arg n).length = q.length := by
  unfold TaskScheduler.nodeAddArg
  split <;> simp

theorem nodeAddArg_getElem?_ne (q : List TaskEntry) (i j : Nat) (arg : List Nat) (n : Nat)
    (h : j ≠ i) : (TaskScheduler.nodeAddArg q i arg n)[j]? = q[j]? := by
  unfold TaskScheduler.nodeAddArg
  split
  · rw [List.getElem?_set_ne (Ne.symm h)]
  · rfl

theorem nodeAddArg_getElem?_self (q : List TaskEntry) (i : Nat) (arg : List Nat) (n : Nat)
    (te : TaskEntry) (h : q[i]? = some te) :
    (TaskScheduler.nodeAddArg q i arg n)[i]? = some (te.AddArg arg n) := by
  unfold TaskScheduler.nodeAddArg
  rw [h]
  have hi : i < q.length := by
    rcases List.getElem?_eq_some_iff.mp h with ⟨hi, _⟩
    exact hi
  simp [List.getElem?_set_self, hi]

/-! ### C1, C2, C5: the member template AddArg -/

/-- C1: when `_lastIndex` points at the queued entry `te` (position `i` of the queue),
`AddArg<T>(v)` leaves the anchor and the number of entries as they are, leaves every other
entry as it is, and turns `te` into the same entry with the `sizeof(T)` bytes of `v` put after
the argument bytes already there, the length growing by `sizeof(T)`. -/
theorem AddArg_appends_to_anchor {α : Type} (T : CType α) (v : α) (ts : TaskScheduler)
    (b : Board) (i : Nat) (te : TaskEntry)
    (hanchor : ts._lastIndex = some i) (hnode : ts._taskLog[i]? = some te) :
    (ts.AddArg T v b).1._lastIndex = ts._lastIndex ∧
    (ts.AddArg T v b).1._taskLog.length = ts._taskLog.length ∧
    (∀ j, j ≠ i → (ts.AddArg T v b).1._taskLog[j]? = ts._taskLog[j]?) ∧
    (ts.AddArg T v b).1._taskLog[i]? = some { te with _args := te._args ++ T.repr v } ∧
    (te._args ++ T.repr v).length = te._args.length + T.size := by
  have htake : (T.repr v).take T.size = T.repr v := by
    rw [← T.repr_length v]
    exact List.take_length (T.repr v)
  refine ⟨?_, ?_, ?_, ?_, ?_⟩
  · simp [TaskScheduler.AddArg, hanchor]
  · simp [TaskScheduler.AddArg, hanchor, nodeAddArg_length]
  · intro j hj
    simp [TaskScheduler.AddArg, hanchor, nodeAddArg_getElem?_ne _ _ _ _ _ hj]
  · simp only [TaskScheduler.AddArg, hanchor]
    rw [nodeAddArg_getElem?_self _ _ _ _ te hnode]
    simp [TaskEntry.AddArg, htake]
  · simp [T.repr_length v]

/-- Witness of C1: the queue of two entries with the anchor on the second one, and the
`int16_t` value -8574. -/
theorem AddArg_appends_to_anchor_witness :
    (TaskScheduler.AddArg int16_t (-8574)
        ⟨[⟨3, 2, 0, 1000, 0, 0, [246, 40, 255, 66], ⟨0, 0, 0, 0, 0⟩⟩,
          ⟨3, 0, 1, 2000, 5000, 4, [], ⟨0, 0, 0, 0, 0⟩⟩], some 1⟩ ⟨true⟩).1._taskLog[1]?
      = some ⟨3, 0, 1, 2000, 5000, 4, [130, 222], ⟨0, 0, 0, 0, 0⟩⟩ :=
  (AddArg_appends_to_anchor int16_t (-8574)
    ⟨[⟨3, 2, 0, 1000, 0, 0, [246, 40, 255, 66], ⟨0, 0, 0, 0, 0⟩⟩,
      ⟨3, 0, 1, 2000, 5000, 4, [], ⟨0, 0, 0, 0, 0⟩⟩], some 1⟩ ⟨true⟩ 1
    ⟨3, 0, 1, 2000, 5000, 4, [], ⟨0, 0, 0, 0, 0⟩⟩ rfl rfl).2.2.2.1

/-- C2: with a null `_lastIndex`, `AddArg<T>(v)` returns with the scheduler object (the queue,
every entry with its argument bytes, and the anchor) exactly as it was. -/
theorem AddArg_null_anchor_noop {α : Type} (T : CType α) (v : α) (ts : TaskScheduler)
    (b : Board) (hnull : ts._lastIndex = none) :
    (ts.AddArg T v b).1 = ts := by
  simp [TaskScheduler.AddArg, hnull]

/-- Witness of C2: a queue of one entry after a pop cleared the anchor. -/
theorem AddArg_null_anchor_noop_witness :
    (TaskScheduler.AddArg uint8_t 2
        ⟨[⟨3, 0, 1, 2000, 5000, 4, [130, 222], ⟨0, 0, 0, 0, 0⟩⟩], none⟩ ⟨true⟩).1
      = ⟨[⟨3, 0, 1, 2000, 5000, 4, [130, 222], ⟨0, 0, 0, 0, 0⟩⟩], none⟩ :=
  AddArg_null_anchor_noop uint8_t 2
    ⟨[⟨3, 0, 1, 2000, 5000, 4, [130, 222], ⟨0, 0, 0, 0, 0⟩⟩], none⟩ ⟨true⟩ rfl

/-- C5 fails as stated: called with interrupts masked, `AddArg` returns with interrupts
enabled. -/
theorem AddArg_masked_entry_not_restored :
    (TaskScheduler.AddArg uint8_t 2 ⟨[], none⟩ ⟨false⟩).2.intEnabled ≠
      (⟨false⟩ : Board).intEnabled := by
  decide

/-- C5 as amended: `AddArg<T>` returns with interrupts enabled whatever the state on entry, so
the state after the call equals the state before it exactly when interrupts were enabled on
entry. -/
theorem AddArg_leaves_interrupts_enabled {α : Type} (T : CType α) (v : α) (ts : TaskScheduler)
    (b : Board) :
    (ts.AddArg T v b).2.intEnabled = true ∧
    ((ts.AddArg T v b).2.intEnabled = b.intEnabled ↔ b.intEnabled = true) := by
  have h : (ts.AddArg T v b).2.intEnabled = true := by
    simp [TaskScheduler.AddArg, HAL_BOARD_InterruptEnable]
  refine ⟨h, ?_⟩
  rw [h]
  exact eq_comm

/-! ### C3, C4, C6, C8: the test module -/

/-- C3: run on a non-null `args`, the callback of the test module keeps `serviceID` and makes
exactly one call of `EmitEvent`, for module `TESTMOD_UID` and the `serviceID` of the record,
with kind `EVENT_OK` if `retVal` is `STATUS_OK` after the service and `EVENT_ERROR` otherwise;
with the log recording, that is exactly one more record. -/
theorem TESTMOD_callback_emits_one_event (L : myLib) (now : Nat) (ker : KernelArgs) (env : Env)
    (args : Nat → Nat) (hargs : ker.args = some args) :
    (_TESTMOD_KernelCallback L now ker env).1.serviceID = ker.serviceID ∧
    (_TESTMOD_KernelCallback L now ker env).2.evLog =
      EventLog.EmitEvent now TESTMOD_UID ker.serviceID
        (if (_TESTMOD_KernelCallback L now ker env).1.retVal = STATUS_OK then EVENT_OK
         else EVENT_ERROR) env.evLog ∧
    (env.evLog.recording = true →
      (_TESTMOD_KernelCallback L now ker env).2.evLog.log =
        env.evLog.log ++ [⟨now, TESTMOD_UID, ker.serviceID,
          if (_TESTMOD_KernelCallback L now ker env).1.retVal = STATUS_OK then EVENT_OK
          else EVENT_ERROR⟩]) := by
  have hsid : (_TESTMOD_KernelCallback.service L ker args env.uart).1.serviceID
      = ker.serviceID := by
    unfold _TESTMOD_KernelCallback.service
    split_ifs <;> rfl
  by_cases hret : (_TESTMOD_KernelCallback.service L ker args env.uart).1.retVal = STATUS_OK
  · have hcb : _TESTMOD_KernelCallback L now ker env =
        ((_TESTMOD_KernelCallback.service L ker args env.uart).1,
         { evLog := EMIT_EV now (_TESTMOD_KernelCallback.service L ker args env.uart).1.serviceID
                      EVENT_OK env.evLog,
           uart := (_TESTMOD_KernelCallback.service L ker args env.uart).2 }) := by
      simp [_TESTMOD_KernelCallback, hargs, hret]
    rw [hcb]
    simp only [hret, if_true, hsid, EMIT_EV]
    refine ⟨trivial, trivial, ?_⟩
    intro hrec
    simp [EventLog.EmitEvent, hrec]
  · have hcb : _TESTMOD_KernelCallback L now ker env =
        ((_TESTMOD_KernelCallback.service L ker args env.uart).1,
         { evLog := EMIT_EV now (_TESTMOD_KernelCallback.service L ker args env.uart).1.serviceID
                      EVENT_ERROR env.evLog,
           uart := (_TESTMOD_KernelCallback.service L ker args env.uart).2 }) := by
      simp [_TESTMOD_KernelCallback, hargs, hret]
    rw [hcb]
    simp only [hret, if_false, hsid, EMIT_EV]
    refine ⟨trivial, trivial, ?_⟩
    intro hrec
    simp [EventLog.EmitEvent, hrec]

/-- Witness of C3: the string service on the 17-byte payload of `main`, log recording. -/
theorem TESTMOD_callback_emits_one_event_witness :
    (_TESTMOD_KernelCallback ⟨2, by decide⟩ 4000
        ⟨1, some (bufferAt main.payload4s (fun _ => 255)), 17, 0⟩ ⟨⟨true, []⟩, []⟩).2.evLog
      = EventLog.EmitEvent 4000 TESTMOD_UID 1
          (if (_TESTMOD_KernelCallback ⟨2, by decide⟩ 4000
                ⟨1, some (bufferAt main.payload4s (fun _ => 255)), 17, 0⟩
                ⟨⟨true, []⟩, []⟩).1.retVal = STATUS_OK then EVENT_OK else EVENT_ERROR)
          ⟨true, []⟩ :=
  (TESTMOD_callback_emits_one_event ⟨2, by decide⟩ 4000
    ⟨1, some (bufferAt main.payload4s (fun _ => 255)), 17, 0⟩ ⟨⟨true, []⟩, []⟩
    (bufferAt main.payload4s (fun _ => 255)) rfl).2.1

theorem scan_spec (s : Nat → Nat) (n : Nat) :
    ∀ r, r ≤ n →
      n - r ≤ TestMod.PrintString.scan s n r ∧ TestMod.PrintString.scan s n r ≤ n ∧
      (TestMod.PrintString.scan s n r < n → s (TestMod.PrintString.scan s n r) = 0) ∧
      ∀ j, n - r ≤ j → j < TestMod.PrintString.scan s n r → s j ≠ 0 := by
  intro r
  induction r with
  | zero =>
    intro _
    refine ⟨by simp [TestMod.PrintString.scan], by simp [TestMod.PrintString.scan], ?_, ?_⟩
    · intro h
      simp [TestMod.PrintString.scan] at h
    · intro j h1 h2
      simp [TestMod.PrintString.scan] at h2
      omega
  | succ r ih =>
    intro hr
    obtain ⟨ih1, ih2, ih3, ih4⟩ := ih (by omega)
    by_cases h0 : s (n - (r + 1)) = 0
    · have hs : TestMod.PrintString.scan s n (r + 1) = n - (r + 1) := by
        simp [TestMod.PrintString.scan, h0]
      rw [hs]
      refine ⟨le_refl _, by omega, fun _ => h0, ?_⟩
      intro j h1 h2
      omega
    · have hs : TestMod.PrintString.scan s n (r + 1) = TestMod.PrintString.scan s n r := by
        simp [TestMod.PrintString.scan, h0]
      rw [hs]
      refine ⟨by omega, ih2, ih3, ?_⟩
      intro j h1 h2
      by_cases hj : j = n - (r + 1)
      · rw [hj]
        exact h0
      · exact ih4 j (by omega) h2

/-- What `TestMod::PrintString` accepts: a NUL among the first 19 bytes of the buffer. -/
theorem PrintString_OK_iff (L : myLib) (s : Nat → Nat) (uart : List DebugLine) :
    (TestMod.PrintString L s uart).1 = STATUS_OK ↔ ∃ k, k + 1 < 20 ∧ s k = 0 := by
  obtain ⟨_, h2, h3, h4⟩ := scan_spec s 20 20 (le_refl _)
  constructor
  · intro h
    by_cases hi : TestMod.PrintString.scan s 20 20 + 1 < 20
    · exact ⟨_, hi, h3 (by omega)⟩
    · exfalso
      simp only [TestMod.PrintString, hi, if_false] at h
      exact L.STATUS_ARG_ERR_ne_OK h
  · rintro ⟨k, hk, hz⟩
    have hi : TestMod.PrintString.scan s 20 20 + 1 < 20 := by
      by_contra hcon
      exact h4 k (by omega) (by omega) hz
    simp only [TestMod.PrintString, hi, if_true]

theorem PrintString_ERR_iff (L : myLib) (s : Nat → Nat) (uart : List DebugLine) :
    (TestMod.PrintString L s uart).1 = L.STATUS_ARG_ERR ↔ ¬ ∃ k, k + 1 < 20 ∧ s k = 0 := by
  rw [← PrintString_OK_iff L s uart]
  constructor
  · intro h hok
    rw [h] at hok
    exact L.STATUS_ARG_ERR_ne_OK hok
  · intro h
    by_cases hi : TestMod.PrintString.scan s 20 20 + 1 < 20
    · exfalso
      apply h
      simp only [TestMod.PrintString, hi, if_true]
    · simp only [TestMod.PrintString, hi, if_false]

/-- C6, the defect: the 20-byte buffer holding 19 characters and the terminating NUL is a
NUL-terminated string of length 19, shorter than the limit of 20, and `TestMod::PrintString`
returns `STATUS_ARG_ERR` for it, not `STATUS_OK`. -/
theorem PrintString_rejects_19_chars (L : myLib) (uart : List DebugLine) :
    (∀ i, i < 19 → buffer19 i ≠ 0) ∧ buffer19 19 = 0 ∧
    (TestMod.PrintString L buffer19 uart).1 = L.STATUS_ARG_ERR ∧
    (TestMod.PrintString L buffer19 uart).1 ≠ STATUS_OK := by
  have herr : (TestMod.PrintString L buffer19 uart).1 = L.STATUS_ARG_ERR := by
    rw [PrintString_ERR_iff]
    rintro ⟨k, hk, hz⟩
    have hk19 : k < 19 := by omega
    simp [buffer19, hk19] at hz
  refine ⟨?_, by simp [buffer19], herr, ?_⟩
  · intro i hi
    simp [buffer19, hi]
  · rw [herr]
    exact L.STATUS_ARG_ERR_ne_OK

theorem memcpy_20 (src : Nat → Nat) :
    memcpy src 20 = [src 0, src 1, src 2, src 3, src 4, src 5, src 6, src 7, src 8, src 9,
      src 10, src 11, src 12, src 13, src 14, src 15, src 16, src 17, src 18, src 19] := rfl

theorem service_PRINTSTR (L : myLib) (ker : KernelArgs) (args : Nat → Nat)
    (uart : List DebugLine) (h : ker.serviceID = TESTMOD_T_PRINTSTR) :
    _TESTMOD_KernelCallback.service L ker args uart =
      ({ ker with retVal :=
          (TestMod.PrintString L (fun i => (memcpy args 20).getD i 0) uart).1 },
       (TestMod.PrintString L (fun i => (memcpy args 20).getD i 0) uart).2) := by
  simp [_TESTMOD_KernelCallback.service, h, TESTMOD_T_PRINTSTR, TESTMOD_T_PRINTINT]

theorem PrintString_payload4s (L : myLib) (beyond : Nat → Nat) (uart : List DebugLine) :
    TestMod.PrintString L (fun i => (memcpy (bufferAt main.payload4s beyond) 20).getD i 0) uart
      = (STATUS_OK, uart ++ [DebugLine.service1
          [80, 114, 105, 110, 116, 105, 110, 103, 32, 97, 116, 32, 84, 43, 52, 115]]) := by
  simp [TestMod.PrintString, TestMod.PrintString.scan, memcpy_20, bufferAt, main.payload4s,
    List.range_succ]

theorem PrintString_payload9s (L : myLib) (over : Nat) (beyond : Nat → Nat)
    (uart : List DebugLine) :
    TestMod.PrintString L
        (fun i => (memcpy (bufferAt (main.payload9s over) beyond) 20).getD i 0) uart
      = (L.STATUS_ARG_ERR, uart ++ [DebugLine.service1_error]) := by
  simp [TestMod.PrintString, TestMod.PrintString.scan, memcpy_20, bufferAt, main.payload9s]

theorem callback_PRINTSTR_payload4s (L : myLib) (now : Nat) (r0 : Int) (beyond : Nat → Nat)
    (env : Env) :
    _TESTMOD_KernelCallback L now
        ⟨TESTMOD_T_PRINTSTR, some (bufferAt main.payload4s beyond), 17, r0⟩ env
      = (⟨TESTMOD_T_PRINTSTR, some (bufferAt main.payload4s beyond), 17, STATUS_OK⟩,
         ⟨EMIT_EV now 1 EVENT_OK env.evLog,
          env.uart ++ [DebugLine.service1
            [80, 114, 105, 110, 116, 105, 110, 103, 32, 97, 116, 32, 84, 43, 52, 115]]⟩) := by
  have hs := service_PRINTSTR L
    ⟨TESTMOD_T_PRINTSTR, some (bufferAt main.payload4s beyond), 17, r0⟩
    (bufferAt main.payload4s beyond) env.uart rfl
  simp only [_TESTMOD_KernelCallback, hs, PrintString_payload4s, if_true]
  rfl

theorem callback_PRINTSTR_payload9s (L : myLib) (now : Nat) (r0 : Int) (over : Nat)
    (beyond : Nat → Nat) (env : Env) :
    _TESTMOD_KernelCallback L now
        ⟨TESTMOD_T_PRINTSTR, some (bufferAt (main.payload9s over) beyond), 35, r0⟩ env
      = (⟨TESTMOD_T_PRINTSTR, some (bufferAt (main.payload9s over) beyond), 35,
          L.STATUS_ARG_ERR⟩,
         ⟨EMIT_EV now 1 EVENT_ERROR env.evLog, env.uart ++ [DebugLine.service1_error]⟩) := by
  have hs := service_PRINTSTR L
    ⟨TESTMOD_T_PRINTSTR, some (bufferAt (main.payload9s over) beyond), 35, r0⟩
    (bufferAt (main.payload9s over) beyond) env.uart rfl
  simp only [_TESTMOD_KernelCallback, hs, PrintString_payload9s, L.STATUS_ARG_ERR_ne_OK,
    if_false]
  rfl

/-- C8 fails as stated: for the 35-byte payload of the task at 9000 ms the string service does
not return `STATUS_OK`, and the event it raises is `EVENT_ERROR`. -/
theorem PRINTSTR_payload9s_not_OK :
    (_TESTMOD_KernelCallback ⟨2, by decide⟩ 9000
        ⟨TESTMOD_T_PRINTSTR, some (bufferAt (main.payload9s 0) (fun _ => 0)), 35, 0⟩
        ⟨⟨true, []⟩, []⟩).1.retVal ≠ STATUS_OK ∧
    (_TESTMOD_KernelCallback ⟨2, by decide⟩ 9000
        ⟨TESTMOD_T_PRINTSTR, some (bufferAt (main.payload9s 0) (fun _ => 0)), 35, 0⟩
        ⟨⟨true, []⟩, []⟩).2.evLog.log = [⟨9000, TESTMOD_UID, 1, EVENT_ERROR⟩] := by
  rw [callback_PRINTSTR_payload9s]
  decide

/-- C8 as amended: for the 17-byte payload "Printing at T+4s" the string service prints the
string, returns `STATUS_OK` and raises `EVENT_OK`; for the 35-byte payload
"Printing a slightly longer string" it prints the error line, returns `STATUS_ARG_ERR` and
raises `EVENT_ERROR`. Both hold whatever lies behind the payload in memory. -/
theorem PRINTSTR_main_payloads (L : myLib) (now : Nat) (r0 : Int) (over : Nat)
    (beyond : Nat → Nat) (env : Env) :
    _TESTMOD_KernelCallback L now
        ⟨TESTMOD_T_PRINTSTR, some (bufferAt main.payload4s beyond), 17, r0⟩ env
      = (⟨TESTMOD_T_PRINTSTR, some (bufferAt main.payload4s beyond), 17, STATUS_OK⟩,
         ⟨EventLog.EmitEvent now TESTMOD_UID 1 EVENT_OK env.evLog,
          env.uart ++ [DebugLine.service1
            [80, 114, 105, 110, 116, 105, 110, 103, 32, 97, 116, 32, 84, 43, 52, 115]]⟩) ∧
    _TESTMOD_KernelCallback L now
        ⟨TESTMOD_T_PRINTSTR, some (bufferAt (main.payload9s over) beyond), 35, r0⟩ env
      = (⟨TESTMOD_T_PRINTSTR, some (bufferAt (main.payload9s over) beyond), 35,
          L.STATUS_ARG_ERR⟩,
         ⟨EventLog.EmitEvent now TESTMOD_UID 1 EVENT_ERROR env.evLog,
          env.uart ++ [DebugLine.service1_error]⟩) ∧
    L.STATUS_ARG_ERR ≠ STATUS_OK :=
  ⟨callback_PRINTSTR_payload4s L now r0 beyond env,
   callback_PRINTSTR_payload9s L now r0 over beyond env, L.STATUS_ARG_ERR_ne_OK⟩

theorem AddArg_at_anchor {α : Type} (T : CType α) (v : α) (ts : TaskScheduler) (b : Board)
    (i : Nat) (te : TaskEntry) (hanchor : ts._lastIndex = some i)
    (hnode : ts._taskLog[i]? = some te) :
    (ts.AddArg T v b).1 =
      ⟨ts._taskLog.set i { te with _args := te._args ++ T.repr v }, some i⟩ := by
  have htake : (T.repr v).take T.size = T.repr v := by
    rw [← T.repr_length v]
    exact List.take_length (T.repr v)
  simp [TaskScheduler.AddArg, hanchor, TaskScheduler.nodeAddArg, hnode, TaskEntry.AddArg, htake]

theorem int16_roundtrip (v : Int) (h1 : -32768 ≤ v) (h2 : v ≤ 32767) :
    int16_of_bytes ((v % 65536).toNat % 256) ((v % 65536).toNat / 256 % 256) = v := by
  unfold int16_of_bytes
  split <;> omega

/-- C4: from an entry with an empty argument buffer, `AddArg<int16_t>(v)` followed by
`AddArg<uint8_t>(n)` leaves the three bytes of `v` and `n` in the buffer, and the PRINTINT
service run on that buffer decodes `intToPrint = v` and `numOfLines = n`: it prints `n` lines
showing `v`. -/
theorem PRINTINT_args_roundtrip (L : myLib) (v : Int) (n : Nat) (hv1 : -32768 ≤ v)
    (hv2 : v ≤ 32767) (hn : n < 256) (ts : TaskScheduler) (b : Board) (i : Nat)
    (te : TaskEntry) (hanchor : ts._lastIndex = some i) (hnode : ts._taskLog[i]? = some te)
    (hempty : te._args = []) (beyond : Nat → Nat) (now : Nat) (r0 : Int) (env : Env) :
    ∃ te2,
      ((ts.AddArg int16_t v b).1.AddArg uint8_t n (ts.AddArg int16_t v b).2).1._taskLog[i]?
        = some te2 ∧
      te2._args = int16_t.repr v ++ uint8_t.repr n ∧
      int16_of_bytes (te2._args.getD 0 0) (te2._args.getD 1 0) = v ∧
      uint8_of_bytes (te2._args.getD 2 0) = n ∧
      _TESTMOD_KernelCallback L now
          ⟨TESTMOD_T_PRINTINT, some (bufferAt te2._args beyond), te2._args.length, r0⟩ env
        = (⟨TESTMOD_T_PRINTINT, some (bufferAt te2._args beyond), te2._args.length, STATUS_OK⟩,
           ⟨EventLog.EmitEvent now TESTMOD_UID 0 EVENT_OK env.evLog,
            env.uart ++ List.replicate n (DebugLine.service0 v)⟩) := by
  have hi : i < ts._taskLog.length := (List.getElem?_eq_some_iff.mp hnode).1
  have h1 := AddArg_at_anchor int16_t v ts b i te hanchor hnode
  have hnode1 : (ts.AddArg int16_t v b).1._taskLog[i]?
      = some { te with _args := te._args ++ int16_t.repr v } := by
    rw [h1]
    simp [List.getElem?_set_self, hi]
  have hanchor1 : (ts.AddArg int16_t v b).1._lastIndex = some i := by
    rw [h1]
  have h2 := AddArg_at_anchor uint8_t n (ts.AddArg int16_t v b).1 (ts.AddArg int16_t v b).2 i
    _ hanchor1 hnode1
  have hrt := int16_roundtrip v hv1 hv2
  have hn8 : n % 256 = n := Nat.mod_eq_of_lt hn
  refine ⟨{ te with _args := te._args ++ int16_t.repr v ++ uint8_t.repr n }, ?_, ?_, ?_, ?_, ?_⟩
  · rw [h2, h1]
    simp [hi]
  · simp [hempty]
  · simp [hempty, int16_t, uint8_t, hrt]
  · simp [hempty, int16_t, uint8_t, uint8_of_bytes, hn8]
  · simp [hempty, int16_t, uint8_t, _TESTMOD_KernelCallback, _TESTMOD_KernelCallback.service,
      TESTMOD_T_PRINTINT, memcpy, List.range_succ, bufferAt, hrt, uint8_of_bytes, hn8,
      TestMod.PrintInt16, EMIT_EV]

/-- Witness of C4: the arguments of the periodic task of `main`, -8574 and 2. -/
theorem PRINTINT_args_roundtrip_witness :
    ∃ te2,
      ((TaskScheduler.AddArg int16_t (-8574)
          ⟨[⟨3, 0, 1, 2000, 5000, 4, [], ⟨0, 0, 0, 0, 0⟩⟩], some 0⟩ ⟨true⟩).1.AddArg uint8_t 2
        (TaskScheduler.AddArg int16_t (-8574)
          ⟨[⟨3, 0, 1, 2000, 5000, 4, [], ⟨0, 0, 0, 0, 0⟩⟩], some 0⟩ ⟨true⟩).2).1._taskLog[0]?
        = some te2 ∧
      te2._args = int16_t.repr (-8574) ++ uint8_t.repr 2 ∧
      int16_of_bytes (te2._args.getD 0 0) (te2._args.getD 1 0) = -8574 ∧
      uint8_of_bytes (te2._args.getD 2 0) = 2 ∧
      _TESTMOD_KernelCallback ⟨2, by decide⟩ 2000
          ⟨TESTMOD_T_PRINTINT, some (bufferAt te2._args (fun _ => 0)), te2._args.length, 0⟩
          ⟨⟨true, []⟩, []⟩
        = (⟨TESTMOD_T_PRINTINT, some (bufferAt te2._args (fun _ => 0)), te2._args.length,
            STATUS_OK⟩,
           ⟨EventLog.EmitEvent 2000 TESTMOD_UID 0 EVENT_OK ⟨true, []⟩,
            [] ++ List.replicate 2 (DebugLine.service0 (-8574))⟩) :=
  PRINTINT_args_roundtrip ⟨2, by decide⟩ (-8574) 2 (by decide) (by decide) (by decide)
    ⟨[⟨3, 0, 1, 2000, 5000, 4, [], ⟨0, 0, 0, 0, 0⟩⟩], some 0⟩ ⟨true⟩ 0
    ⟨3, 0, 1, 2000, 5000, 4, [], ⟨0, 0, 0, 0, 0⟩⟩ rfl rfl rfl (fun _ => 0) 2000 0
    ⟨⟨true, []⟩, []⟩

/-! ### C9: averages of the statistics reporter -/

theorem TS_GlobalCheck_empty (beyond : Nat → Nat) (s : Sys) (hq : s.ts._taskLog = []) :
    TS_GlobalCheck beyond s = (s, none) := by
  simp [TS_GlobalCheck, hq]

theorem TS_GlobalCheck_early (beyond : Nat → Nat) (s : Sys) (head : TaskEntry)
    (rest : List TaskEntry) (hq : s.ts._taskLog = head :: rest)
    (h : (s.msSinceStartup : Int) < head._timestamp) :
    TS_GlobalCheck beyond s = (s, none) := by
  simp [TS_GlobalCheck, hq, h]

theorem TS_GlobalCheck_fire (beyond : Nat → Nat) (s : Sys) (head : TaskEntry)
    (rest : List TaskEntry) (ker : _kernelEntry) (cb : CallBackFunc)
    (hq : s.ts._taskLog = head :: rest) (h : head._timestamp ≤ (s.msSinceStartup : Int))
    (hv : TaskScheduler.ValidKernModule s head._libuid = some (ker, cb)) :
    TS_GlobalCheck beyond s =
      ({ s with
         ts := ⟨TS_GlobalCheck.queueAfter s.msSinceStartup head rest, none⟩
         kernelVector := Function.update s.kernelVector head._libuid
           (some { toKernelArgs :=
                     (cb s.msSinceStartup
                        ⟨head._task, some (bufferAt head._args beyond),
                         head._args.length % 65536, 0⟩ s.env).1,
                   callBackFunc := some cb })
         env := (cb s.msSinceStartup
                   ⟨head._task, some (bufferAt head._args beyond),
                    head._args.length % 65536, 0⟩ s.env).2 },
       some head) := by
  have hnot : ¬ ((s.msSinceStartup : Int) < head._timestamp) := not_lt.mpr h
  simp [TS_GlobalCheck, hq, hnot, hv]

theorem ValidKernModule_update (s s1 : Sys) (uid : Nat) (k : KernelArgs) (cb : CallBackFunc)
    (huid : uid < NUM_OF_MODULES)
    (hk : s1.kernelVector = Function.update s.kernelVector uid
            (some { toKernelArgs := k, callBackFunc := some cb })) :
    TaskScheduler.ValidKernModule s1 uid
      = some ({ toKernelArgs := k, callBackFunc := some cb }, cb) := by
  simp [TaskScheduler.ValidKernModule, huid, hk]

theorem ValidKernModule_lt (s : Sys) (uid : Nat) (r : _kernelEntry × CallBackFunc)
    (h : TaskScheduler.ValidKernModule s uid = some r) : uid < NUM_OF_MODULES := by
  by_contra hcon
  simp [TaskScheduler.ValidKernModule, hcon] at h

/-! ### The main loop: composition and idle stretches -/

theorem mainLoop_add (beyond : Nat → Nat) (a b : Nat) :
    ∀ s : Sys, mainLoop beyond (a + b) s =
      ((mainLoop beyond b (mainLoop beyond a s).1).1,
       (mainLoop beyond a s).2 ++ (mainLoop beyond b (mainLoop beyond a s).1).2) := by
  induction a with
  | zero =>
    intro s
    simp [mainLoop]
  | succ a ih =>
    intro s
    have hab : a + 1 + b = (a + b) + 1 := by omega
    rw [hab]
    simp only [mainLoop]
    rw [ih]
    simp [List.append_assoc]

theorem mainLoop_idle (beyond : Nat → Nat) :
    ∀ (k : Nat) (s : Sys), s.timeStepMS = 1 →
      (∀ te ∈ s.ts._taskLog.head?, ((s.msSinceStartup + k : Nat) : Int) ≤ te._timestamp) →
      mainLoop beyond k s = ({ s with msSinceStartup := s.msSinceStartup + k }, []) := by
  intro k
  induction k with
  | zero =>
    intro s _ _
    simp [mainLoop]
  | succ k ih =>
    intro s hstep hhead
    have hidle : TS_GlobalCheck beyond s = (s, none) := by
      cases hq : s.ts._taskLog with
      | nil => exact TS_GlobalCheck_empty beyond s hq
      | cons head rest =>
        apply TS_GlobalCheck_early beyond s head rest hq
        have := hhead head (by simp [hq])
        push_cast at this ⊢
        omega
    simp only [mainLoop, hidle]
    have hih := ih (SysTickHandler s) (by simp [SysTickHandler, hstep]) (by
      intro te hte
      have := hhead te (by simpa [SysTickHandler] using hte)
      simp only [SysTickHandler, hstep]
      push_cast at this ⊢
      omega)
    rw [hih]
    simp [SysTickHandler, hstep, Nat.add_assoc, Nat.add_comm 1 k]


/-! ### A periodic task alone in the queue -/

theorem lateness_on_time (now : Nat) (te : TaskEntry) (h : te._timestamp = (now : Int)) :
    TS_GlobalCheck.lateness now te = te := by
  simp [TS_GlobalCheck.lateness, h]

theorem reschedule_last (now : Nat) (te : TaskEntry) (hP : 0 < te._period)
    (hrep : te._repeats = 0 ∨ te._repeats = 1) :
    TS_GlobalCheck.reschedule now te = none := by
  rcases hrep with h | h <;> simp [TS_GlobalCheck.reschedule, hP, h]

theorem reschedule_more (now : Nat) (te : TaskEntry) (hP : 0 < te._period)
    (hrep : 1 < te._repeats) (ht : te._timestamp = (now : Int)) :
    TS_GlobalCheck.reschedule now te =
      some { te with _repeats := te._repeats - 1, _timestamp := te._timestamp + te._period } := by
  have h0 : te._repeats ≠ 0 := by omega
  have h1 : 0 < te._repeats := by omega
  have h2 : te._repeats - 1 ≠ 0 := by omega
  have h3 : ¬ (te._timestamp + te._period < (now : Int)) := by omega
  simp [TS_GlobalCheck.reschedule, hP, h0, h1, h2, TS_GlobalCheck.nextFire, h3]

/-- One pass of the loop and one tick at the very time a task that is alone in the queue is
due, its module being valid. -/
theorem fire_single (beyond : Nat → Nat) (s : Sys) (te : TaskEntry)
    (hstep : s.timeStepMS = 1) (hq : s.ts._taskLog = [te])
    (hvalid : (TaskScheduler.ValidKernModule s te._libuid).isSome)
    (ht : te._timestamp = (s.msSinceStartup : Int)) :
    (TS_GlobalCheck beyond s).2 = some te ∧
    (SysTickHandler (TS_GlobalCheck beyond s).1).timeStepMS = 1 ∧
    (SysTickHandler (TS_GlobalCheck beyond s).1).msSinceStartup = s.msSinceStartup + 1 ∧
    (TaskScheduler.ValidKernModule (SysTickHandler (TS_GlobalCheck beyond s).1)
      te._libuid).isSome ∧
    (SysTickHandler (TS_GlobalCheck beyond s).1).ts._taskLog =
      (match TS_GlobalCheck.reschedule s.msSinceStartup (TS_GlobalCheck.countRun te) with
       | some te3 => [te3]
       | none => []) := by
  obtain ⟨⟨ker, cb⟩, hv⟩ := Option.isSome_iff_exists.mp hvalid
  have huid := ValidKernModule_lt s te._libuid _ hv
  have hfire := TS_GlobalCheck_fire beyond s te [] ker cb hq (le_of_eq ht) hv
  unfold TS_GlobalCheck.queueAfter at hfire
  rw [lateness_on_time s.msSinceStartup te ht] at hfire
  rw [hfire]
  refine ⟨rfl, ?_, ?_, ?_, ?_⟩
  · simp [SysTickHandler, hstep]
  · simp [SysTickHandler, hstep]
  · rw [ValidKernModule_update s _ te._libuid _ cb huid rfl]
    rfl
  · simp only [SysTickHandler]
    cases TS_GlobalCheck.reschedule s.msSinceStartup (TS_GlobalCheck.countRun te) with
    | none => rfl
    | some te3 => rfl

theorem mainLoop_succ (beyond : Nat → Nat) (n : Nat) (s : Sys) :
    mainLoop beyond (n + 1) s =
      ((mainLoop beyond n (SysTickHandler (TS_GlobalCheck beyond s).1)).1,
       ((TS_GlobalCheck beyond s).2.map (fun te => (s.msSinceStartup, te))).toList ++
         (mainLoop beyond n (SysTickHandler (TS_GlobalCheck beyond s).1)).2) := rfl

theorem mainLoop_empty (beyond : Nat → Nat) (n : Nat) (s : Sys) (hstep : s.timeStepMS = 1)
    (hq : s.ts._taskLog = []) :
    (mainLoop beyond n s).1.ts._taskLog = [] ∧ (mainLoop beyond n s).2 = [] := by
  rw [mainLoop_idle beyond n s hstep (by simp [hq])]
  exact ⟨hq, rfl⟩


theorem mainLoop_idle_ex (beyond : Nat → Nat) (k : Nat) (s : Sys) (hstep : s.timeStepMS = 1)
    (hhead : ∀ te ∈ s.ts._taskLog.head?, ((s.msSinceStartup + k : Nat) : Int) ≤ te._timestamp) :
    ∃ s1, mainLoop beyond k s = (s1, []) ∧ s1.msSinceStartup = s.msSinceStartup + k ∧
      s1.timeStepMS = 1 ∧ s1.ts = s.ts ∧ s1.kernelVector = s.kernelVector ∧ s1.env = s.env :=
  ⟨_, mainLoop_idle beyond k s hstep hhead, rfl, hstep, rfl, rfl, rfl⟩

theorem ValidKernModule_congr (s s1 : Sys) (uid : Nat)
    (h : s1.kernelVector = s.kernelVector) :
    TaskScheduler.ValidKernModule s1 uid = TaskScheduler.ValidKernModule s uid := by
  simp [TaskScheduler.ValidKernModule, h]

/-- A periodic task alone in the queue, due at `t` with `m + 1` runs left, polled once per
millisecond from a time not after `t` until after `t + m * P`: it is popped at the times
`t, t + P, ..., t + m * P` and at no other, and the queue ends empty. -/
theorem mainLoop_single_periodic (beyond : Nat → Nat) (P : Nat) (hP : 0 < P) :
    ∀ (m : Nat) (s : Sys) (te : TaskEntry) (t : Nat),
      s.timeStepMS = 1 → s.ts._taskLog = [te] →
      (TaskScheduler.ValidKernModule s te._libuid).isSome →
      te._timestamp = (t : Int) → te._period = (P : Int) →
      (te._repeats = ((m + 1 : Nat) : Int) ∨ (m = 0 ∧ te._repeats = 0)) →
      s.msSinceStartup ≤ t →
      ∀ n, t + m * P < s.msSinceStartup + n →
        (mainLoop beyond n s).1.ts._taskLog = [] ∧
        (mainLoop beyond n s).2.map popView =
          (List.range (m + 1)).map
            (fun i => (t + i * P, ((t + i * P : Nat) : Int), te._PID, te._libuid, te._task)) := by
  intro m
  induction m with
  | zero =>
    intro s te t hstep hq hvalid ht hper hrep hnow n hn
    obtain ⟨a, ha⟩ : ∃ a, t = s.msSinceStartup + a := ⟨t - s.msSinceStartup, by omega⟩
    obtain ⟨n1, hn1⟩ : ∃ n1, n = a + (n1 + 1) := ⟨n - a - 1, by omega⟩
    obtain ⟨s1, hidle, hnow1, hstep1, hts1, hkv1, _⟩ := mainLoop_idle_ex beyond a s hstep (by
      intro x hx
      simp [hq] at hx
      rw [← hx, ht, ha])
    rw [hn1, mainLoop_add, hidle]
    have hq1 : s1.ts._taskLog = [te] := by rw [hts1, hq]
    have hvalid1 : (TaskScheduler.ValidKernModule s1 te._libuid).isSome := by
      rw [ValidKernModule_congr s s1 _ hkv1]
      exact hvalid
    obtain ⟨hf1, hf2, _, _, hf5⟩ := fire_single beyond s1 te hstep1 hq1 hvalid1
      (by rw [ht, hnow1, ha])
    have hrep1 : te._repeats = 0 ∨ te._repeats = 1 := by
      rcases hrep with h | ⟨_, h⟩
      · right
        simpa using h
      · left
        exact h
    rw [reschedule_last s1.msSinceStartup (TS_GlobalCheck.countRun te)
      (by show 0 < te._period; rw [hper]; exact_mod_cast hP) hrep1] at hf5
    have hrest := mainLoop_empty beyond n1 _ hf2 hf5
    simp only [mainLoop_succ, hf1, hrest.1, hrest.2]
    simp [popView, ht, ha, hnow1, List.range_succ]
  | succ m ih =>
    intro s te t hstep hq hvalid ht hper hrep hnow n hn
    have hmP1 : (m + 1) * P = m * P + P := Nat.succ_mul m P
    obtain ⟨a, ha⟩ : ∃ a, t = s.msSinceStartup + a := ⟨t - s.msSinceStartup, by omega⟩
    obtain ⟨n1, hn1⟩ : ∃ n1, n = a + (n1 + 1) := ⟨n - a - 1, by omega⟩
    obtain ⟨s1, hidle, hnow1, hstep1, hts1, hkv1, _⟩ := mainLoop_idle_ex beyond a s hstep (by
      intro x hx
      simp [hq] at hx
      rw [← hx, ht, ha])
    rw [hn1, mainLoop_add, hidle]
    have hq1 : s1.ts._taskLog = [te] := by rw [hts1, hq]
    have hvalid1 : (TaskScheduler.ValidKernModule s1 te._libuid).isSome := by
      rw [ValidKernModule_congr s s1 _ hkv1]
      exact hvalid
    obtain ⟨hf1, hf2, hf3, hf4, hf5⟩ := fire_single beyond s1 te hstep1 hq1 hvalid1
      (by rw [ht, hnow1, ha])
    have hrepv : te._repeats = ((m + 1 + 1 : Nat) : Int) := by
      rcases hrep with h | ⟨h, _⟩
      · exact h
      · omega
    rw [reschedule_more s1.msSinceStartup (TS_GlobalCheck.countRun te)
      (by show 0 < te._period; rw [hper]; exact_mod_cast hP)
      (by show 1 < te._repeats; rw [hrepv]; push_cast; omega)
      (by show te._timestamp = _; rw [ht, hnow1, ha])] at hf5
    have hrest := ih _ _ (t + P) hf2 hf5 hf4
      (by show te._timestamp + te._period = _; rw [ht, hper]; push_cast; rfl)
      (by show te._period = _; exact hper)
      (Or.inl (by show te._repeats - 1 = _; rw [hrepv]; push_cast; omega))
      (by rw [hf3, hnow1]; omega) n1
      (by rw [hf3, hnow1]; omega)
    simp only [mainLoop_succ, hf1, hrest.1, List.map_append, hrest.2]
    refine ⟨trivial, ?_⟩
    rw [List.range_succ_eq_map (m + 1)]
    simp [popView, ht, ha, hnow1, Nat.succ_mul, Nat.add_assoc, Nat.add_comm P,
      TS_GlobalCheck.countRun]
    intro i _
    ring


/-! ### The main loop, event by event -/

theorem TS_GlobalCheck_clock (beyond : Nat → Nat) (s : Sys) :
    (TS_GlobalCheck beyond s).1.msSinceStartup = s.msSinceStartup ∧
    (TS_GlobalCheck beyond s).1.timeStepMS = s.timeStepMS := by
  unfold TS_GlobalCheck
  split
  · exact ⟨rfl, rfl⟩
  · split
    · exact ⟨rfl, rfl⟩
    · split <;> exact ⟨rfl, rfl⟩

theorem TS_GlobalCheck_due (beyond : Nat → Nat) (s : Sys) (head : TaskEntry)
    (rest : List TaskEntry) (hq : s.ts._taskLog = head :: rest)
    (h : head._timestamp ≤ (s.msSinceStartup : Int)) :
    (TS_GlobalCheck beyond s).2 = some head := by
  have hnot : ¬ ((s.msSinceStartup : Int) < head._timestamp) := not_lt.mpr h
  unfold TS_GlobalCheck
  simp only [hq, hnot, if_false]
  split <;> rfl

theorem mainLoop_eq_eventLoop (beyond : Nat → Nat) :
    ∀ (n fuel : Nat) (s : Sys), s.timeStepMS = 1 → n ≤ fuel →
      mainLoop beyond n s = eventLoop beyond (s.msSinceStartup + n) fuel s := by
  intro n
  induction n using Nat.strong_induction_on with
  | _ n ih =>
    intro fuel s hstep hfuel
    cases fuel with
    | zero =>
      have hn : n = 0 := by omega
      subst hn
      rfl
    | succ fuel =>
      cases hq : s.ts._taskLog with
      | nil =>
        rw [mainLoop_idle beyond n s hstep (by simp [hq])]
        simp [eventLoop, hq]
      | cons head rest =>
        by_cases hlt : max s.msSinceStartup head._timestamp.toNat < s.msSinceStartup + n
        · obtain ⟨a, ha⟩ : ∃ a, max s.msSinceStartup head._timestamp.toNat
              = s.msSinceStartup + a :=
            ⟨max s.msSinceStartup head._timestamp.toNat - s.msSinceStartup, by omega⟩
          obtain ⟨n1, hn1⟩ : ∃ n1, n = a + (n1 + 1) := ⟨n - a - 1, by omega⟩
          have hidle : mainLoop beyond a s =
              ({ s with msSinceStartup := s.msSinceStartup + a }, []) := by
            by_cases ha0 : a = 0
            · subst ha0
              rfl
            · apply mainLoop_idle beyond a s hstep
              intro x hx
              simp [hq] at hx
              rw [← hx]
              omega
          have hdue := TS_GlobalCheck_due beyond
            { s with msSinceStartup := s.msSinceStartup + a } head rest hq (by
              show head._timestamp ≤ ((s.msSinceStartup + a : Nat) : Int)
              omega)
          have hclock := TS_GlobalCheck_clock beyond
            { s with msSinceStartup := s.msSinceStartup + a }
          have hih := ih n1 (by omega) fuel
            (SysTickHandler (TS_GlobalCheck beyond
              { s with msSinceStartup := s.msSinceStartup + a }).1)
            (by
              show (TS_GlobalCheck beyond _).1.timeStepMS = 1
              rw [hclock.2]
              exact hstep) (by omega)
          have hnow1 : (SysTickHandler (TS_GlobalCheck beyond
              { s with msSinceStartup := s.msSinceStartup + a }).1).msSinceStartup + n1
              = s.msSinceStartup + n := by
            show (TS_GlobalCheck beyond _).1.msSinceStartup
              + (TS_GlobalCheck beyond _).1.timeStepMS + n1 = _
            rw [hclock.1, hclock.2]
            show s.msSinceStartup + a + s.timeStepMS + n1 = _
            rw [hstep]
            omega
          rw [hnow1] at hih
          have hlt2 : s.msSinceStartup + a < s.msSinceStartup + n := by omega
          simp only [eventLoop, hq, ha, hlt2, if_true]
          rw [hn1, mainLoop_add, hidle, mainLoop_succ, hdue, hih, ← hn1]
          rfl
        · have hidle : mainLoop beyond n s =
              ({ s with msSinceStartup := s.msSinceStartup + n }, []) := by
            by_cases hn0 : n = 0
            · subst hn0
              rfl
            · apply mainLoop_idle beyond n s hstep
              intro x hx
              simp [hq] at hx
              rw [← hx]
              omega
          rw [hidle]
          simp [eventLoop, hq, hlt]


/-! ### The pops depend on the queue alone -/

theorem AddSort_mem (te x : TaskEntry) :
    ∀ q : List TaskEntry, x ∈ (LinkedList.AddSort te q).1 → x = te ∨ x ∈ q := by
  intro q
  induction q with
  | nil =>
    intro h
    simp [LinkedList.AddSort] at h
    exact Or.inl h
  | cons y ys ih =>
    intro h
    by_cases hlt : te._timestamp < y._timestamp
    · simp [LinkedList.AddSort, hlt] at h
      rcases h with h | h | h
      · exact Or.inl h
      · exact Or.inr (by simp [h])
      · exact Or.inr (by simp [h])
    · simp [LinkedList.AddSort, hlt] at h
      rcases h with h | h
      · exact Or.inr (by simp [h])
      · rcases ih h with h1 | h1
        · exact Or.inl h1
        · exact Or.inr (by simp [h1])

theorem reschedule_keeps (now : Nat) (te te3 : TaskEntry)
    (h : TS_GlobalCheck.reschedule now te = some te3) :
    te3._libuid = te._libuid ∧ te3._task = te._task ∧ te3._PID = te._PID := by
  unfold TS_GlobalCheck.reschedule at h
  split_ifs at h <;> simp at h <;> (subst h; exact ⟨rfl, rfl, rfl⟩)

theorem lateness_keeps (now : Nat) (te : TaskEntry) :
    (TS_GlobalCheck.lateness now te)._libuid = te._libuid ∧
    (TS_GlobalCheck.lateness now te)._task = te._task ∧
    (TS_GlobalCheck.lateness now te)._PID = te._PID := by
  unfold TS_GlobalCheck.lateness
  split_ifs <;> exact ⟨rfl, rfl, rfl⟩

theorem queueAfter_mem (now : Nat) (head x : TaskEntry) (rest : List TaskEntry)
    (h : x ∈ TS_GlobalCheck.queueAfter now head rest) :
    x ∈ rest ∨ (x._libuid = head._libuid ∧ x._task = head._task) := by
  unfold TS_GlobalCheck.queueAfter at h
  cases hr : TS_GlobalCheck.reschedule now
      (TS_GlobalCheck.countRun (TS_GlobalCheck.lateness now head)) with
  | none =>
    rw [hr] at h
    exact Or.inl h
  | some te3 =>
    rw [hr] at h
    rcases AddSort_mem te3 x rest h with h1 | h1
    · right
      obtain ⟨k1, k2, _⟩ := reschedule_keeps now _ te3 hr
      obtain ⟨l1, l2, _⟩ := lateness_keeps now head
      rw [h1, k1, k2]
      exact ⟨l1, l2⟩
    · exact Or.inl h1

theorem TS_GlobalCheck_valid (beyond : Nat → Nat) (s : Sys) (uid : Nat)
    (cb : CallBackFunc) (h : ∃ ker, TaskScheduler.ValidKernModule s uid = some (ker, cb)) :
    ∃ ker, TaskScheduler.ValidKernModule (TS_GlobalCheck beyond s).1 uid = some (ker, cb) := by
  obtain ⟨ker, hk⟩ := h
  have huid := ValidKernModule_lt s uid _ hk
  cases hq : s.ts._taskLog with
  | nil =>
    rw [TS_GlobalCheck_empty beyond s hq]
    exact ⟨ker, hk⟩
  | cons head rest =>
    by_cases hlt : (s.msSinceStartup : Int) < head._timestamp
    · rw [TS_GlobalCheck_early beyond s head rest hq hlt]
      exact ⟨ker, hk⟩
    · cases hv : TaskScheduler.ValidKernModule s head._libuid with
      | none =>
        have : TS_GlobalCheck beyond s =
            ({ s with
               ts := ⟨rest, none⟩
               env := { s.env with evLog := EventLog.EmitEvent s.msSinceStartup head._libuid
                                              head._task EVENT_ERROR s.env.evLog } },
             some head) := by
          simp [TS_GlobalCheck, hq, hlt, hv]
        rw [this]
        exact ⟨ker, by rw [← hk]; exact ValidKernModule_congr s _ uid rfl⟩
      | some r =>
        obtain ⟨ker2, cb2⟩ := r
        rw [TS_GlobalCheck_fire beyond s head rest ker2 cb2 hq (not_lt.mp hlt) hv]
        by_cases hu : uid = head._libuid
        · subst hu
          rw [hk] at hv
          cases hv
          exact ⟨_, ValidKernModule_update s _ head._libuid _ cb huid rfl⟩
        · refine ⟨ker, ?_⟩
          rw [← hk]
          simp [TaskScheduler.ValidKernModule, Function.update_noteq hu]

theorem TS_GlobalCheck_valid_isSome (beyond : Nat → Nat) (s : Sys) (uid : Nat)
    (h : (TaskScheduler.ValidKernModule s uid).isSome) :
    (TaskScheduler.ValidKernModule (TS_GlobalCheck beyond s).1 uid).isSome := by
  obtain ⟨⟨ker, cb⟩, hv⟩ := Option.isSome_iff_exists.mp h
  obtain ⟨ker2, h2⟩ := TS_GlobalCheck_valid beyond s uid cb ⟨ker, hv⟩
  rw [h2]
  rfl

theorem TS_GlobalCheck_queue (beyond : Nat → Nat) (s : Sys) (head : TaskEntry)
    (rest : List TaskEntry) (hq : s.ts._taskLog = head :: rest)
    (h : head._timestamp ≤ (s.msSinceStartup : Int))
    (hv : (TaskScheduler.ValidKernModule s head._libuid).isSome) :
    (TS_GlobalCheck beyond s).1.ts._taskLog
      = TS_GlobalCheck.queueAfter s.msSinceStartup head rest := by
  obtain ⟨⟨ker, cb⟩, hv1⟩ := Option.isSome_iff_exists.mp hv
  rw [TS_GlobalCheck_fire beyond s head rest ker cb hq h hv1]

theorem eventLoop_eq_queueLoop (beyond : Nat → Nat) (stop : Nat) :
    ∀ (fuel : Nat) (s : Sys), s.timeStepMS = 1 →
      (∀ te ∈ s.ts._taskLog, (TaskScheduler.ValidKernModule s te._libuid).isSome) →
      (eventLoop beyond stop fuel s).2 = (queueLoop stop fuel s.msSinceStartup s.ts._taskLog).1 ∧
      (eventLoop beyond stop fuel s).1.ts._taskLog =
        (queueLoop stop fuel s.msSinceStartup s.ts._taskLog).2 := by
  intro fuel
  induction fuel with
  | zero =>
    intro s _ _
    exact ⟨rfl, rfl⟩
  | succ fuel ih =>
    intro s hstep hvalid
    cases hq : s.ts._taskLog with
    | nil =>
      simp [eventLoop, queueLoop, hq]
    | cons head rest =>
      by_cases hlt : max s.msSinceStartup head._timestamp.toNat < stop
      · have hvh : (TaskScheduler.ValidKernModule
            { s with msSinceStartup := max s.msSinceStartup head._timestamp.toNat }
            head._libuid).isSome := by
          show (TaskScheduler.ValidKernModule s head._libuid).isSome
          exact hvalid head (by simp [hq])
        have hqa := TS_GlobalCheck_queue beyond
          { s with msSinceStartup := max s.msSinceStartup head._timestamp.toNat } head rest hq
          (by
            show head._timestamp ≤ ((max s.msSinceStartup head._timestamp.toNat : Nat) : Int)
            omega) hvh
        have hclock := TS_GlobalCheck_clock beyond
          { s with msSinceStartup := max s.msSinceStartup head._timestamp.toNat }
        have hih := ih (SysTickHandler (TS_GlobalCheck beyond
            { s with msSinceStartup := max s.msSinceStartup head._timestamp.toNat }).1)
          (by
            show (TS_GlobalCheck beyond _).1.timeStepMS = 1
            rw [hclock.2]
            exact hstep)
          (by
            intro te hte
            have hte1 : te ∈ TS_GlobalCheck.queueAfter
                (max s.msSinceStartup head._timestamp.toNat) head rest := by
              rw [← hqa]
              exact hte
            have hsrc : (TaskScheduler.ValidKernModule s te._libuid).isSome := by
              rcases queueAfter_mem _ head te rest hte1 with h1 | h1
              · exact hvalid te (by simp [hq, h1])
              · rw [h1.1]
                exact hvalid head (by simp [hq])
            show (TaskScheduler.ValidKernModule (TS_GlobalCheck beyond _).1 te._libuid).isSome
            apply TS_GlobalCheck_valid_isSome
            exact hsrc)
        have hnow1 : (SysTickHandler (TS_GlobalCheck beyond
            { s with msSinceStartup := max s.msSinceStartup head._timestamp.toNat }).1).msSinceStartup
            = max s.msSinceStartup head._timestamp.toNat + 1 := by
          show (TS_GlobalCheck beyond _).1.msSinceStartup
            + (TS_GlobalCheck beyond _).1.timeStepMS = _
          rw [hclock.1, hclock.2]
          show max s.msSinceStartup head._timestamp.toNat + s.timeStepMS = _
          rw [hstep]
        have hq1 : (SysTickHandler (TS_GlobalCheck beyond
            { s with msSinceStartup := max s.msSinceStartup head._timestamp.toNat }).1).ts._taskLog
            = TS_GlobalCheck.queueAfter (max s.msSinceStartup head._timestamp.toNat) head rest :=
          hqa
        rw [hnow1, hq1] at hih
        simp only [eventLoop, queueLoop, hq, hlt, if_true]
        exact ⟨by rw [hih.1], hih.2⟩
      · simp [eventLoop, queueLoop, hq, hlt]

/-- The pops of the main loop and the queue it leaves, computed on the queue alone. -/
theorem mainLoop_eq_queueLoop (beyond : Nat → Nat) (n : Nat) (s : Sys)
    (hstep : s.timeStepMS = 1)
    (hvalid : ∀ te ∈ s.ts._taskLog, (TaskScheduler.ValidKernModule s te._libuid).isSome) :
    (mainLoop beyond n s).2 =
      (queueLoop (s.msSinceStartup + n) n s.msSinceStartup s.ts._taskLog).1 ∧
    (mainLoop beyond n s).1.ts._taskLog =
      (queueLoop (s.msSinceStartup + n) n s.msSinceStartup s.ts._taskLog).2 := by
  rw [mainLoop_eq_eventLoop beyond n n s hstep (le_refl n)]
  exact eventLoop_eq_queueLoop beyond _ n s hstep hvalid


/-! ### The pops do not depend on the argument bytes -/

theorem lateness_noArgs (now : Nat) (te : TaskEntry) :
    TS_GlobalCheck.lateness now te.noArgs = (TS_GlobalCheck.lateness now te).noArgs := by
  unfold TS_GlobalCheck.lateness
  by_cases h : 0 < (now : Int) - te._timestamp
  · have h1 : 0 < (now : Int) - te.noArgs._timestamp := h
    rw [if_pos h, if_pos h1]
    rfl
  · have h1 : ¬ 0 < (now : Int) - te.noArgs._timestamp := h
    rw [if_neg h, if_neg h1]

theorem reschedule_noArgs (now : Nat) (te : TaskEntry) :
    TS_GlobalCheck.reschedule now te.noArgs
      = (TS_GlobalCheck.reschedule now te).map TaskEntry.noArgs := by
  unfold TS_GlobalCheck.reschedule
  simp only [TaskEntry.noArgs]
  split_ifs <;> rfl

theorem AddSort_noArgs (te : TaskEntry) :
    ∀ q : List TaskEntry,
      LinkedList.AddSort te.noArgs (q.map TaskEntry.noArgs)
        = ((LinkedList.AddSort te q).1.map TaskEntry.noArgs, (LinkedList.AddSort te q).2) := by
  intro q
  induction q with
  | nil => rfl
  | cons x xs ih =>
    by_cases h : te._timestamp < x._timestamp
    · have h1 : te.noArgs._timestamp < x.noArgs._timestamp := h
      simp [LinkedList.AddSort, h, h1]
    · have h1 : ¬ te.noArgs._timestamp < x.noArgs._timestamp := h
      simp [LinkedList.AddSort, h, h1, ih]

theorem queueAfter_noArgs (now : Nat) (head : TaskEntry) (rest : List TaskEntry) :
    TS_GlobalCheck.queueAfter now head.noArgs (rest.map TaskEntry.noArgs)
      = (TS_GlobalCheck.queueAfter now head rest).map TaskEntry.noArgs := by
  unfold TS_GlobalCheck.queueAfter
  rw [lateness_noArgs]
  have hc : TS_GlobalCheck.countRun (TS_GlobalCheck.lateness now head).noArgs
      = (TS_GlobalCheck.countRun (TS_GlobalCheck.lateness now head)).noArgs := rfl
  rw [hc, reschedule_noArgs]
  cases TS_GlobalCheck.reschedule now
      (TS_GlobalCheck.countRun (TS_GlobalCheck.lateness now head)) with
  | none => rfl
  | some te3 =>
    show (LinkedList.AddSort te3.noArgs (rest.map TaskEntry.noArgs)).1 = _
    rw [AddSort_noArgs]

theorem queueLoop_noArgs (stop : Nat) :
    ∀ (fuel now : Nat) (q : List TaskEntry),
      (queueLoop stop fuel now (q.map TaskEntry.noArgs)).1.map popView
        = (queueLoop stop fuel now q).1.map popView ∧
      (queueLoop stop fuel now (q.map TaskEntry.noArgs)).2
        = (queueLoop stop fuel now q).2.map TaskEntry.noArgs := by
  intro fuel
  induction fuel with
  | zero =>
    intro now q
    exact ⟨rfl, rfl⟩
  | succ fuel ih =>
    intro now q
    cases q with
    | nil => exact ⟨rfl, rfl⟩
    | cons head rest =>
      by_cases hlt : max now head._timestamp.toNat < stop
      · have hlt1 : max now head.noArgs._timestamp.toNat < stop := hlt
        have h := ih (max now head._timestamp.toNat + 1)
          (TS_GlobalCheck.queueAfter (max now head._timestamp.toNat) head rest)
        rw [← queueAfter_noArgs] at h
        simp only [List.map_cons, queueLoop, hlt, hlt1, if_true]
        refine ⟨?_, h.2⟩
        have h1 := h.1
        simp only [TaskEntry.noArgs] at h1 ⊢
        rw [h1]
        rfl
      · have hlt1 : ¬ max now head.noArgs._timestamp.toNat < stop := hlt
        simp only [List.map_cons, queueLoop, hlt, hlt1, if_false]
        exact ⟨trivial, trivial⟩


/-! ### What the scheduling calls of `main` leave in the queue -/

theorem nodeAddArg_noArgs (q : List TaskEntry) (i : Nat) (arg : List Nat) (n : Nat) :
    (TaskScheduler.nodeAddArg q i arg n).map TaskEntry.noArgs = q.map TaskEntry.noArgs := by
  unfold TaskScheduler.nodeAddArg
  cases h : q[i]? with
  | none => rfl
  | some te =>
    apply List.ext_getElem?
    intro j
    by_cases hj : i = j
    · subst hj
      obtain ⟨hi, hte⟩ := List.getElem?_eq_some_iff.mp h
      subst hte
      simp [List.getElem?_map, List.getElem?_set_self, hi, TaskEntry.noArgs,
        TaskEntry.AddArg]
    · simp [List.getElem?_map, List.getElem?_set_ne hj]

theorem Sys_AddArg_noArgs {α : Type} (T : CType α) (v : α) (s : Sys) :
    (Sys.AddArg T v s).ts._taskLog.map TaskEntry.noArgs
      = s.ts._taskLog.map TaskEntry.noArgs := by
  unfold Sys.AddArg TaskScheduler.AddArg
  cases h : s.ts._lastIndex with
  | none => simp [h]
  | some i => simp [h, nodeAddArg_noArgs]

/-- The first two tasks of `main` as queued when the loop is entered, argument bytes left
out, with the clock, the tick and the registry of that state. -/
theorem main_tasks12_sched (L : myLib) (stat : CallBackFunc) :
    (main.tasks12 L stat).ts._taskLog.map TaskEntry.noArgs =
      [⟨3, 2, 0, 1000, 0, 0, [], ⟨0, 0, 0, 0, 0⟩⟩,
       ⟨3, 0, 1, 2000, 5000, 4, [], ⟨0, 0, 0, 0, 0⟩⟩] ∧
    (main.tasks12 L stat).nextPID = 2 ∧
    (main.tasks12 L stat).msSinceStartup = 0 ∧
    (main.tasks12 L stat).timeStepMS = 1 ∧
    (main.tasks12 L stat).kernelVector = (main.init L stat).kernelVector :=
  ⟨rfl, rfl, rfl, rfl, rfl⟩

theorem main_init_valid (L : myLib) (stat : CallBackFunc) :
    (TaskScheduler.ValidKernModule (main.init L stat) 3).isSome ∧
    (TaskScheduler.ValidKernModule (main.init L stat) 4).isSome ∧
    ∃ ker, TaskScheduler.ValidKernModule (main.init L stat) TESTMOD_UID
      = some (ker, _TESTMOD_KernelCallback L) :=
  ⟨rfl, rfl, _, rfl⟩

theorem main_tasks12_valid (L : myLib) (stat : CallBackFunc) :
    ∀ te ∈ (main.tasks12 L stat).ts._taskLog,
      (TaskScheduler.ValidKernModule (main.tasks12 L stat) te._libuid).isSome := by
  intro te hte
  obtain ⟨hq, _, _, _, hkv⟩ := main_tasks12_sched L stat
  have hmem : te.noArgs ∈ (main.tasks12 L stat).ts._taskLog.map TaskEntry.noArgs :=
    List.mem_map_of_mem _ hte
  rw [hq] at hmem
  rw [ValidKernModule_congr (main.init L stat) _ _ hkv]
  have huid : te._libuid = 3 := by
    simp only [List.mem_cons, List.mem_singleton, List.not_mem_nil, or_false] at hmem
    rcases hmem with h | h <;> exact congrArg TaskEntry._libuid h
  rw [huid]
  exact (main_init_valid L stat).1

/-- The pops of the loop of `main` over 25001 ticks with the first two tasks queued: the float
one-shot at 1000 ms and the periodic integer task at 2000, 7000, 12000 and 17000 ms; the queue
ends empty. -/
theorem main_tasks12_run (L : myLib) (stat : CallBackFunc) (beyond : Nat → Nat) :
    (mainLoop beyond 25001 (main.tasks12 L stat)).2.map popView =
      [(1000, 1000, 0, 3, 2), (2000, 2000, 1, 3, 0), (7000, 7000, 1, 3, 0),
       (12000, 12000, 1, 3, 0), (17000, 17000, 1, 3, 0)] ∧
    (mainLoop beyond 25001 (main.tasks12 L stat)).1.ts._taskLog = [] := by
  obtain ⟨hq, _, hnow, hstep, _⟩ := main_tasks12_sched L stat
  obtain ⟨h1, h2⟩ := mainLoop_eq_queueLoop beyond 25001 _ hstep (main_tasks12_valid L stat)
  obtain ⟨h3, h4⟩ := queueLoop_noArgs ((main.tasks12 L stat).msSinceStartup + 25001) 25001
    (main.tasks12 L stat).msSinceStartup (main.tasks12 L stat).ts._taskLog
  rw [hq, hnow] at h3 h4
  constructor
  · rw [h1, hnow, ← h3]
    decide
  · have h5 : (queueLoop (0 + 25001) 25001 0
        [⟨3, 2, 0, 1000, 0, 0, [], ⟨0, 0, 0, 0, 0⟩⟩,
         ⟨3, 0, 1, 2000, 5000, 4, [], ⟨0, 0, 0, 0, 0⟩⟩]).2 = [] := by decide
    rw [h5] at h4
    rw [h2, hnow]
    exact List.map_eq_nil_iff.mp h4.symm


/-! ### The event log along the main loop -/

theorem callback_OK_services (L : myLib) (now sid : Nat) (a : Nat → Nat) (n : Nat) (r0 : Int)
    (env : Env) (h : sid = TESTMOD_T_PRINTINT ∨ sid = TESTMOD_T_PRINTFLOAT) :
    (_TESTMOD_KernelCallback L now ⟨sid, some a, n, r0⟩ env).2.evLog
      = EventLog.EmitEvent now TESTMOD_UID sid EVENT_OK env.evLog := by
  rcases h with h | h <;> subst h <;>
    simp [_TESTMOD_KernelCallback, _TESTMOD_KernelCallback.service, TestMod.PrintInt16,
      TestMod.PrintFloat, EMIT_EV, TESTMOD_T_PRINTINT, TESTMOD_T_PRINTSTR,
      TESTMOD_T_PRINTFLOAT]

/-- One pass of the loop when the log is recording, the test module is registered under its
UID and every queued task asks the test module for its integer or float service: the same
holds afterwards, and the log has grown by one OK record for the entry popped, if any. -/
theorem TS_GlobalCheck_log (L : myLib) (beyond : Nat → Nat) (s : Sys)
    (hrec : s.env.evLog.recording = true)
    (hcb : ∃ ker, TaskScheduler.ValidKernModule s TESTMOD_UID
      = some (ker, _TESTMOD_KernelCallback L))
    (hq : ∀ te ∈ s.ts._taskLog, te._libuid = TESTMOD_UID ∧
      (te._task = TESTMOD_T_PRINTINT ∨ te._task = TESTMOD_T_PRINTFLOAT)) :
    (TS_GlobalCheck beyond s).1.env.evLog.recording = true ∧
    (∀ te ∈ (TS_GlobalCheck beyond s).1.ts._taskLog, te._libuid = TESTMOD_UID ∧
      (te._task = TESTMOD_T_PRINTINT ∨ te._task = TESTMOD_T_PRINTFLOAT)) ∧
    (TS_GlobalCheck beyond s).1.env.evLog.log = s.env.evLog.log ++
      ((TS_GlobalCheck beyond s).2.map
        (fun te => (⟨s.msSinceStartup, TESTMOD_UID, te._task, EVENT_OK⟩ : _eventEntry))).toList := by
  cases hql : s.ts._taskLog with
  | nil =>
    rw [TS_GlobalCheck_empty beyond s hql]
    exact ⟨hrec, hq, by simp⟩
  | cons head rest =>
    by_cases hlt : (s.msSinceStartup : Int) < head._timestamp
    · rw [TS_GlobalCheck_early beyond s head rest hql hlt]
      exact ⟨hrec, hq, by simp⟩
    · obtain ⟨ker, hv⟩ := hcb
      obtain ⟨huid, htask⟩ := hq head (by simp [hql])
      rw [← huid] at hv
      rw [TS_GlobalCheck_fire beyond s head rest ker _ hql (not_lt.mp hlt) hv]
      have hlog := callback_OK_services L s.msSinceStartup head._task
        (bufferAt head._args beyond) (head._args.length % 65536) 0 s.env htask
      refine ⟨?_, ?_, ?_⟩
      · show (_TESTMOD_KernelCallback L s.msSinceStartup _ s.env).2.evLog.recording = true
        rw [hlog]
        simp [EventLog.EmitEvent, hrec]
      · intro te hte
        have hte1 : te ∈ TS_GlobalCheck.queueAfter s.msSinceStartup head rest := hte
        rcases queueAfter_mem _ head te rest hte1 with h1 | h1
        · exact hq te (by simp [hql, h1])
        · rw [h1.1, h1.2]
          exact ⟨huid, htask⟩
      · show (_TESTMOD_KernelCallback L s.msSinceStartup _ s.env).2.evLog.log = _
        rw [hlog]
        simp [EventLog.EmitEvent, hrec]

/-- The event log after any number of ticks of the main loop, under the conditions of
`TS_GlobalCheck_log`: one OK record of the test module per pop, in the order of the pops. -/
theorem mainLoop_log (L : myLib) (beyond : Nat → Nat) :
    ∀ (n : Nat) (s : Sys), s.env.evLog.recording = true →
      (∃ ker, TaskScheduler.ValidKernModule s TESTMOD_UID
        = some (ker, _TESTMOD_KernelCallback L)) →
      (∀ te ∈ s.ts._taskLog, te._libuid = TESTMOD_UID ∧
        (te._task = TESTMOD_T_PRINTINT ∨ te._task = TESTMOD_T_PRINTFLOAT)) →
      (mainLoop beyond n s).1.env.evLog.log = s.env.evLog.log ++
        (mainLoop beyond n s).2.map
          (fun d => (⟨d.1, TESTMOD_UID, d.2._task, EVENT_OK⟩ : _eventEntry)) := by
  intro n
  induction n with
  | zero =>
    intro s _ _ _
    simp [mainLoop]
  | succ n ih =>
    intro s hrec hcb hq
    obtain ⟨h1, h2, h3⟩ := TS_GlobalCheck_log L beyond s hrec hcb hq
    have hcb1 := TS_GlobalCheck_valid beyond s TESTMOD_UID _ hcb
    have hih := ih (SysTickHandler (TS_GlobalCheck beyond s).1) h1 hcb1 h2
    rw [mainLoop_succ]
    simp only []
    rw [hih]
    show (TS_GlobalCheck beyond s).1.env.evLog.log ++ _ = _
    rw [h3]
    cases (TS_GlobalCheck beyond s).2 with
    | none => simp
    | some te => simp


/-! ### C7: the event log of `main` -/

/-- The event log once the loop of `main` has run for 25001 ticks on the first two tasks: the
three life-cycle events of the test module, then one OK record per pop. -/
theorem main_tasks12_log (L : myLib) (stat : CallBackFunc) (beyond : Nat → Nat) :
    (mainLoop beyond 25001 (main.tasks12 L stat)).1.env.evLog.log =
      [⟨0, 3, -1, EVENT_UNINITIALIZED⟩, ⟨0, 3, -1, EVENT_STARTUP⟩,
       ⟨0, 3, -1, EVENT_INITIALIZED⟩, ⟨1000, 3, 2, EVENT_OK⟩, ⟨2000, 3, 0, EVENT_OK⟩,
       ⟨7000, 3, 0, EVENT_OK⟩, ⟨12000, 3, 0, EVENT_OK⟩, ⟨17000, 3, 0, EVENT_OK⟩] := by
  obtain ⟨hq, _, _, _, hkv⟩ := main_tasks12_sched L stat
  have hcb : ∃ ker, TaskScheduler.ValidKernModule (main.tasks12 L stat) TESTMOD_UID
      = some (ker, _TESTMOD_KernelCallback L) := by
    rw [ValidKernModule_congr (main.init L stat) _ _ hkv]
    exact (main_init_valid L stat).2.2
  have hqs : ∀ te ∈ (main.tasks12 L stat).ts._taskLog, te._libuid = TESTMOD_UID ∧
      (te._task = TESTMOD_T_PRINTINT ∨ te._task = TESTMOD_T_PRINTFLOAT) := by
    intro te hte
    have hmem : te.noArgs ∈ (main.tasks12 L stat).ts._taskLog.map TaskEntry.noArgs :=
      List.mem_map_of_mem _ hte
    rw [hq] at hmem
    simp only [List.mem_cons, List.mem_singleton, List.not_mem_nil, or_false] at hmem
    rcases hmem with h | h
    · exact ⟨congrArg TaskEntry._libuid h, Or.inr (congrArg TaskEntry._task h)⟩
    · exact ⟨congrArg TaskEntry._libuid h, Or.inl (congrArg TaskEntry._task h)⟩
  have hlog := mainLoop_log L beyond 25001 (main.tasks12 L stat) rfl hcb hqs
  have hrun := (main_tasks12_run L stat beyond).1
  have hmap : (mainLoop beyond 25001 (main.tasks12 L stat)).2.map
      (fun d => (⟨d.1, TESTMOD_UID, d.2._task, EVENT_OK⟩ : _eventEntry))
      = ((mainLoop beyond 25001 (main.tasks12 L stat)).2.map popView).map
          (fun v => (⟨v.1, TESTMOD_UID, v.2.2.2.2, EVENT_OK⟩ : _eventEntry)) := by
    rw [List.map_map]
    rfl
  rw [hlog, hmap, hrun]
  rfl

/-- C7 fails as stated: with logging enabled as `main` does, the log after the float one-shot
and the four runs of the periodic integer task holds 8 records, not 5, and its oldest record
is of kind UNINITIALIZED, not OK. -/
theorem main_tasks12_log_not_5_OK :
    (mainLoop (fun _ => 0) 25001
        (main.tasks12 ⟨2, by decide⟩ (fun _ k e => (k, e)))).2.length = 5 ∧
    (mainLoop (fun _ => 0) 25001
        (main.tasks12 ⟨2, by decide⟩ (fun _ k e => (k, e)))).1.env.evLog.log.length = 8 ∧
    ((mainLoop (fun _ => 0) 25001
        (main.tasks12 ⟨2, by decide⟩ (fun _ k e => (k, e)))).1.env.evLog.log.map
          (fun r => r.event)).head? = some EVENT_UNINITIALIZED := by
  have hlen := congrArg List.length
    (main_tasks12_run ⟨2, by decide⟩ (fun _ k e => (k, e)) (fun _ => 0)).1
  rw [List.length_map] at hlen
  rw [main_tasks12_log, hlen]
  decide

/-- C7 as amended: with logging enabled as `main` does, constructing and initialising the test
module puts three events into the log (UNINITIALIZED, STARTUP, INITIALIZED); running the float
one-shot task and the four runs of the periodic integer task then adds one record per callback
invocation (5 records), each of kind OK and stamped with the fire time, so that the log ends
with 8 records. -/
theorem main_tasks12_event_log (L : myLib) (stat : CallBackFunc) (beyond : Nat → Nat) :
    (main.init L stat).env.evLog =
      ⟨true, [⟨0, 3, -1, EVENT_UNINITIALIZED⟩, ⟨0, 3, -1, EVENT_STARTUP⟩,
              ⟨0, 3, -1, EVENT_INITIALIZED⟩]⟩ ∧
    (mainLoop beyond 25001 (main.tasks12 L stat)).2.map popView =
      [(1000, 1000, 0, 3, 2), (2000, 2000, 1, 3, 0), (7000, 7000, 1, 3, 0),
       (12000, 12000, 1, 3, 0), (17000, 17000, 1, 3, 0)] ∧
    (mainLoop beyond 25001 (main.tasks12 L stat)).1.env.evLog.log =
      (main.init L stat).env.evLog.log ++
        [⟨1000, 3, 2, EVENT_OK⟩, ⟨2000, 3, 0, EVENT_OK⟩, ⟨7000, 3, 0, EVENT_OK⟩,
         ⟨12000, 3, 0, EVENT_OK⟩, ⟨17000, 3, 0, EVENT_OK⟩] ∧
    (mainLoop beyond 25001 (main.tasks12 L stat)).1.env.evLog.log.length = 8 := by
  refine ⟨rfl, (main_tasks12_run L stat beyond).1, ?_, ?_⟩
  · rw [main_tasks12_log]
    rfl
  · rw [main_tasks12_log]
    rfl


/-! ### C15, C16: the callback of the test module off its three services -/

/-- C15: whatever the service ID, the callback of the test module run on a null `args`
returns at once: the callback record (with its `retVal`), the event log and the serial port
are as before, so that no service has run and no event has been emitted. -/
theorem TESTMOD_callback_null_args (L : myLib) (now : Nat) (ker : KernelArgs) (env : Env)
    (hnull : ker.args = none) :
    _TESTMOD_KernelCallback L now ker env = (ker, env) := by
  simp [_TESTMOD_KernelCallback, hnull]

/-- Witness of C15: the string service asked for with a null `args`, log recording. -/
theorem TESTMOD_callback_null_args_witness :
    _TESTMOD_KernelCallback ⟨2, by decide⟩ 4000 ⟨1, none, 0, 7⟩ ⟨⟨true, []⟩, []⟩
      = (⟨1, none, 0, 7⟩, ⟨⟨true, []⟩, []⟩) :=
  TESTMOD_callback_null_args ⟨2, by decide⟩ 4000 ⟨1, none, 0, 7⟩ ⟨⟨true, []⟩, []⟩ rfl

/-- C16: for a service ID other than 0, 1 and 2 and a non-null `args`, the callback of the
test module runs no service (the callback record, with its `retVal`, and the serial port are
as before) and makes exactly one call of `EmitEvent`, whose kind is `EVENT_OK` when the
`retVal` found on entry is `STATUS_OK` and `EVENT_ERROR` otherwise. -/
theorem TESTMOD_callback_unknown_service (L : myLib) (now : Nat) (ker : KernelArgs)
    (env : Env) (args : Nat → Nat) (hargs : ker.args = some args)
    (h0 : ker.serviceID ≠ TESTMOD_T_PRINTINT) (h1 : ker.serviceID ≠ TESTMOD_T_PRINTSTR)
    (h2 : ker.serviceID ≠ TESTMOD_T_PRINTFLOAT) :
    _TESTMOD_KernelCallback L now ker env =
      (ker,
       { evLog := EventLog.EmitEvent now TESTMOD_UID ker.serviceID
           (if ker.retVal = STATUS_OK then EVENT_OK else EVENT_ERROR) env.evLog,
         uart := env.uart }) := by
  have hs : _TESTMOD_KernelCallback.service L ker args env.uart = (ker, env.uart) := by
    simp [_TESTMOD_KernelCallback.service, h0, h1, h2]
  by_cases hret : ker.retVal = STATUS_OK
  · simp [_TESTMOD_KernelCallback, hargs, hs, hret, EMIT_EV]
  · simp [_TESTMOD_KernelCallback, hargs, hs, hret, EMIT_EV]

/-- Witness of C16: service ID 3 with a `retVal` left at 7 by an earlier run. -/
theorem TESTMOD_callback_unknown_service_witness :
    _TESTMOD_KernelCallback ⟨2, by decide⟩ 4000 ⟨3, some (fun _ => 0), 0, 7⟩ ⟨⟨true, []⟩, []⟩
      = (⟨3, some (fun _ => 0), 0, 7⟩,
         { evLog := EventLog.EmitEvent 4000 TESTMOD_UID 3
             (if (7 : Int) = STATUS_OK then EVENT_OK else EVENT_ERROR) ⟨true, []⟩,
           uart := [] }) :=
  TESTMOD_callback_unknown_service ⟨2, by decide⟩ 4000 ⟨3, some (fun _ => 0), 0, 7⟩
    ⟨⟨true, []⟩, []⟩ (fun _ => 0) rfl (by decide) (by decide) (by decide)


/-! ### C13: the names of the event kinds -/

/-- C13, the counterexample: the name the table holds for the seventh kind, `PRIO_INVERSION`,
is `PRIOINVERSION` (main.cpp:72), which is not the name of the kind. -/
theorem evName_PRIO_INVERSION_differs :
    EVENT_PRIOINVERSION.toNat = 6 ∧
    ∃ row, STATISTICS_KerCallback.evName[EVENT_PRIOINVERSION.toNat]? = some row ∧
      cString row = asciiOf "PRIOINVERSION" ∧
      cString row ≠ asciiOf EVENT_PRIOINVERSION.name :=
  ⟨rfl, _, rfl, by decide, by decide⟩

/-- C13, as amended: for every one of the seven event kinds, numbered 0 to 6 in their order,
the index `evName[kind]` is within the seven rows of the table, the row is 15 bytes long and
holds a NUL, and the string printed from it is the name of the kind with the underscore (code
95) left out: the name of the kind itself for every kind but `PRIO_INVERSION`, and
`PRIOINVERSION` for that one. -/
theorem evName_lookup (k : EVENTS) :
    STATISTICS_KerCallback.evName.length = 7 ∧
    k.toNat < STATISTICS_KerCallback.evName.length ∧
    ∃ row, STATISTICS_KerCallback.evName[k.toNat]? = some row ∧
      row.length = 15 ∧ 0 ∈ row ∧ (cString row).length < 15 ∧
      cString row = (asciiOf k.name).filter (fun c => c != 95) ∧
      (cString row = asciiOf k.name ↔ k ≠ EVENT_PRIOINVERSION) := by
  cases k <;>
    exact ⟨by decide, by decide, _, rfl, by decide, by decide, by decide, by decide,
      by decide⟩


/-! ### C11: absolute and relative times of the scheduling calls -/

theorem AddSort_getElem? (te : TaskEntry) :
    ∀ q : List TaskEntry,
      (LinkedList.AddSort te q).1[(LinkedList.AddSort te q).2]? = some te := by
  intro q
  induction q with
  | nil => rfl
  | cons x xs ih =>
    by_cases h : te._timestamp < x._timestamp
    · simp [LinkedList.AddSort, h]
    · simp [LinkedList.AddSort, h, ih]

/-- The entry a scheduling call creates, found under the anchor the call leaves. -/
theorem SyncTaskPer_entry (libUID taskID : Nat) (time period rep : Int) (s : Sys)
    (huid : libUID < NUM_OF_MODULES) :
    ∃ i, (TaskScheduler.SyncTaskPer libUID taskID time period rep s).ts._lastIndex = some i ∧
      (TaskScheduler.SyncTaskPer libUID taskID time period rep s).ts._taskLog[i]? =
        some ⟨libUID, taskID, s.nextPID, TaskScheduler.timeOf s.msSinceStartup time, period,
              rep, [], ⟨0, 0, 0, 0, 0⟩⟩ := by
  refine ⟨(LinkedList.AddSort
      ⟨libUID, taskID, s.nextPID, TaskScheduler.timeOf s.msSinceStartup time, period, rep, [],
       ⟨0, 0, 0, 0, 0⟩⟩ s.ts._taskLog).2, ?_, ?_⟩
  · simp only [TaskScheduler.SyncTaskPer, huid, if_true]
  · simp only [TaskScheduler.SyncTaskPer, huid, if_true]
    exact AddSort_getElem? _ _

theorem TS_GlobalCheck_pop_due (beyond : Nat → Nat) (s : Sys) (te : TaskEntry)
    (h : (TS_GlobalCheck beyond s).2 = some te) :
    te._timestamp ≤ (s.msSinceStartup : Int) := by
  cases hq : s.ts._taskLog with
  | nil =>
    rw [TS_GlobalCheck_empty beyond s hq] at h
    exact absurd h (by simp)
  | cons head rest =>
    by_cases hlt : (s.msSinceStartup : Int) < head._timestamp
    · rw [TS_GlobalCheck_early beyond s head rest hq hlt] at h
      exact absurd h (by simp)
    · rw [TS_GlobalCheck_due beyond s head rest hq (not_lt.mp hlt)] at h
      cases h
      exact not_lt.mp hlt

/-- No pop of the main loop comes before the scheduled timestamp of the entry popped. -/
theorem mainLoop_pop_due (beyond : Nat → Nat) :
    ∀ (n : Nat) (s : Sys) (d : Nat × TaskEntry), d ∈ (mainLoop beyond n s).2 →
      d.2._timestamp ≤ (d.1 : Int) := by
  intro n
  induction n with
  | zero =>
    intro s d hd
    simp [mainLoop] at hd
  | succ n ih =>
    intro s d hd
    rw [mainLoop_succ] at hd
    rcases List.mem_append.mp hd with h | h
    · cases hp : (TS_GlobalCheck beyond s).2 with
      | none =>
        rw [hp] at h
        simp at h
      | some te =>
        rw [hp] at h
        simp at h
        rw [h]
        exact TS_GlobalCheck_pop_due beyond s te hp
    · exact ih _ d h

/-- C11: for every `T > 0` and every value of the clock at the call, `SyncTask` with
`time = -T` creates an entry whose timestamp is the clock value plus `T`, and with a
`time ≥ 0` an entry whose timestamp is `time`; no entry is popped by the main loop before its
timestamp; `SyncTask(STATISTICS_UID, STATISTICS_T_EVLOG, -22000)` called with the clock at
3000 creates an entry with timestamp 25000. -/
theorem SyncTask_time_convention (s : Sys) (libUID taskID T : Nat) (time : Int) (hT : 0 < T)
    (htime : 0 ≤ time) (huid : libUID < NUM_OF_MODULES) :
    (∃ i, (TaskScheduler.SyncTask libUID taskID (-(T : Int)) s).ts._lastIndex = some i ∧
      (TaskScheduler.SyncTask libUID taskID (-(T : Int)) s).ts._taskLog[i]? =
        some ⟨libUID, taskID, s.nextPID, ((s.msSinceStartup + T : Nat) : Int), 0, 0, [],
              ⟨0, 0, 0, 0, 0⟩⟩) ∧
    (∃ i, (TaskScheduler.SyncTask libUID taskID time s).ts._lastIndex = some i ∧
      (TaskScheduler.SyncTask libUID taskID time s).ts._taskLog[i]? =
        some ⟨libUID, taskID, s.nextPID, time, 0, 0, [], ⟨0, 0, 0, 0, 0⟩⟩) ∧
    (∀ (beyond : Nat → Nat) (n : Nat) (s1 : Sys) (d : Nat × TaskEntry),
      d ∈ (mainLoop beyond n s1).2 → d.2._timestamp ≤ (d.1 : Int)) ∧
    (∃ i, (TaskScheduler.SyncTask STATISTICS_UID STATISTICS_T_EVLOG (-22000)
        { s with msSinceStartup := 3000 }).ts._lastIndex = some i ∧
      (TaskScheduler.SyncTask STATISTICS_UID STATISTICS_T_EVLOG (-22000)
        { s with msSinceStartup := 3000 }).ts._taskLog[i]? =
        some ⟨STATISTICS_UID, STATISTICS_T_EVLOG, s.nextPID, 25000, 0, 0, [],
              ⟨0, 0, 0, 0, 0⟩⟩) := by
  have hrel : TaskScheduler.timeOf s.msSinceStartup (-(T : Int))
      = ((s.msSinceStartup + T : Nat) : Int) := by
    have hneg : (-(T : Int)) < 0 := by omega
    simp only [TaskScheduler.timeOf, hneg, if_true]
    push_cast
    omega
  have habs : TaskScheduler.timeOf s.msSinceStartup time = time := by
    have hnn : ¬ time < 0 := by omega
    simp only [TaskScheduler.timeOf, hnn, if_false]
  have h1 := SyncTaskPer_entry libUID taskID (-(T : Int)) 0 0 s huid
  have h2 := SyncTaskPer_entry libUID taskID time 0 0 s huid
  have h3 := SyncTaskPer_entry STATISTICS_UID STATISTICS_T_EVLOG (-22000) 0 0
    { s with msSinceStartup := 3000 } (by decide)
  rw [hrel] at h1
  rw [habs] at h2
  have hmain : TaskScheduler.timeOf 3000 (-22000) = 25000 := by decide
  simp only [hmain] at h3
  exact ⟨h1, h2, mainLoop_pop_due, h3⟩

/-- Witness of C11: the sixth task of `main`, scheduled with the clock at 3000. -/
theorem SyncTask_time_convention_witness :
    ∃ i, (TaskScheduler.SyncTask 4 1 (-((22000 : Nat) : Int))
        { Sys.reset with msSinceStartup := 3000 }).ts._lastIndex = some i ∧
      (TaskScheduler.SyncTask 4 1 (-((22000 : Nat) : Int))
        { Sys.reset with msSinceStartup := 3000 }).ts._taskLog[i]? =
        some ⟨4, 1, 0, ((3000 + 22000 : Nat) : Int), 0, 0, [], ⟨0, 0, 0, 0, 0⟩⟩ :=
  (SyncTask_time_convention { Sys.reset with msSinceStartup := 3000 } 4 1 22000 9000
    (by decide) (by decide) (by decide)).1


/-! ### C12: the order of the queue -/

theorem AddSort_marked_map (x : TaskEntry × Nat) :
    ∀ Q : List (TaskEntry × Nat),
      (LinkedList.AddSort.marked x Q).map Prod.fst =
        (LinkedList.AddSort x.1 (Q.map Prod.fst)).1 := by
  intro Q
  induction Q with
  | nil => rfl
  | cons y ys ih =>
    by_cases h : x.1._timestamp < y.1._timestamp
    · simp [LinkedList.AddSort.marked, LinkedList.AddSort, h]
    · simp [LinkedList.AddSort.marked, LinkedList.AddSort, h, ih]

theorem AddSort_marked_mem (x y : TaskEntry × Nat) :
    ∀ Q : List (TaskEntry × Nat), y ∈ LinkedList.AddSort.marked x Q → y = x ∨ y ∈ Q := by
  intro Q
  induction Q with
  | nil =>
    intro h
    simp [LinkedList.AddSort.marked] at h
    exact Or.inl h
  | cons z zs ih =>
    intro h
    by_cases hlt : x.1._timestamp < z.1._timestamp
    · simp only [LinkedList.AddSort.marked, hlt, if_true] at h
      rcases List.mem_cons.mp h with h | h
      · exact Or.inl h
      · exact Or.inr h
    · simp only [LinkedList.AddSort.marked, hlt, if_false] at h
      rcases List.mem_cons.mp h with h | h
      · exact Or.inr (by rw [h]; exact List.mem_cons_self z zs)
      · rcases ih h with h1 | h1
        · exact Or.inl h1
        · exact Or.inr (List.mem_cons_of_mem z h1)

theorem AddSort_marked_before (x : TaskEntry × Nat) :
    ∀ Q : List (TaskEntry × Nat), Q.Pairwise Traced.before → (∀ y ∈ Q, y.2 < x.2) →
      (LinkedList.AddSort.marked x Q).Pairwise Traced.before := by
  intro Q
  induction Q with
  | nil =>
    intro _ _
    simp [LinkedList.AddSort.marked]
  | cons z zs ih =>
    intro hp hst
    obtain ⟨hz, hzs⟩ := List.pairwise_cons.mp hp
    by_cases h : x.1._timestamp < z.1._timestamp
    · simp only [LinkedList.AddSort.marked, h, if_true]
      refine List.pairwise_cons.mpr ⟨?_, hp⟩
      intro y hy
      have hzy : z.1._timestamp ≤ y.1._timestamp := by
        rcases List.mem_cons.mp hy with h1 | h1
        · rw [h1]
        · exact (hz y h1).1
      exact ⟨by omega, fun he => by omega⟩
    · simp only [LinkedList.AddSort.marked, h, if_false]
      refine List.pairwise_cons.mpr
        ⟨?_, ih hzs (fun y hy => hst y (List.mem_cons_of_mem z hy))⟩
      intro y hy
      rcases AddSort_marked_mem x y zs hy with h1 | h1
      · rw [h1]
        exact ⟨by omega, fun _ => hst z (List.mem_cons_self z zs)⟩
      · exact hz y h1

theorem RemoveFirst_marked_map (p : TaskEntry → Bool) :
    ∀ Q : List (TaskEntry × Nat),
      (LinkedList.RemoveFirst.marked p Q).map Prod.fst =
        (LinkedList.RemoveFirst p (Q.map Prod.fst)).1 := by
  intro Q
  induction Q with
  | nil => rfl
  | cons y ys ih =>
    by_cases h : p y.1 = true
    · simp [LinkedList.RemoveFirst.marked, LinkedList.RemoveFirst, h]
    · simp [LinkedList.RemoveFirst.marked, LinkedList.RemoveFirst, h, ih]

theorem RemoveFirst_marked_sublist (p : TaskEntry → Bool) :
    ∀ Q : List (TaskEntry × Nat), (LinkedList.RemoveFirst.marked p Q).Sublist Q := by
  intro Q
  induction Q with
  | nil => exact List.Sublist.refl _
  | cons y ys ih =>
    by_cases h : p y.1 = true
    · simp only [LinkedList.RemoveFirst.marked, h, if_true]
      exact List.sublist_cons_self y ys
    · simp only [LinkedList.RemoveFirst.marked, h]
      exact List.Sublist.cons₂ y ih

theorem nodeAddArg_timestamps (q : List TaskEntry) (i : Nat) (arg : List Nat) (n : Nat) :
    (TaskScheduler.nodeAddArg q i arg n).map (fun te => te._timestamp) =
      q.map (fun te => te._timestamp) := by
  unfold TaskScheduler.nodeAddArg
  cases h : q[i]? with
  | none => rfl
  | some te =>
    simp only
    rw [List.map_set]
    apply List.ext_getElem?
    intro k
    by_cases hk : i = k
    · subst hk
      by_cases hlt : i < q.length
      · rw [List.getElem?_set_self (by simpa using hlt)]
        rw [List.getElem?_eq_getElem hlt] at h
        injection h with h
        simp [TaskEntry.AddArg, List.getElem?_map, List.getElem?_eq_getElem hlt, h]
      · rw [List.getElem?_eq_none (by simpa using hlt)] at h
        cases h
    · rw [List.getElem?_set_ne hk]

theorem zip_marks (f : TaskEntry → Int) :
    ∀ (Q : List (TaskEntry × Nat)) (a : List TaskEntry),
      a.map f = Q.map (fun y => f y.1) →
      (a.zip (Q.map Prod.snd)).map (fun y => (f y.1, y.2)) = Q.map (fun y => (f y.1, y.2)) := by
  intro Q
  induction Q with
  | nil =>
    intro a h
    cases a with
    | nil => rfl
    | cons b bs => simp at h
  | cons y ys ih =>
    intro a h
    cases a with
    | nil => simp at h
    | cons b bs =>
      simp only [List.map_cons, List.cons.injEq] at h
      simp only [List.map_cons, List.zip_cons_cons, List.cons.injEq]
      exact ⟨by rw [h.1], ih bs h.2⟩

/-- What the order of the queue is about: timestamps and insertion numbers. -/
theorem before_iff_key (Q : List (TaskEntry × Nat)) :
    Q.Pairwise Traced.before ↔
      (Q.map (fun y => (y.1._timestamp, y.2))).Pairwise
        (fun a b => a.1 ≤ b.1 ∧ (a.1 = b.1 → a.2 < b.2)) := by
  rw [List.pairwise_map]
  rfl

theorem applyTraced_inv (t : Traced) (op : QueueOp) (h : t.Inv) :
    (QueueOp.applyTraced t op).Inv := by
  obtain ⟨hq, hp, hst⟩ := h
  have hstep : ∀ Q : List (TaskEntry × Nat), Q.Sublist t.queue →
      ∀ y ∈ Q, y.2 < t.step + 1 :=
    fun Q hs y hy => Nat.lt_succ_of_lt (hst y (hs.subset hy))
  have hins : ∀ (te : TaskEntry) (Q : List (TaskEntry × Nat)), Q.Sublist t.queue →
      (LinkedList.AddSort.marked (te, t.step) Q).Pairwise Traced.before ∧
      ∀ y ∈ LinkedList.AddSort.marked (te, t.step) Q, y.2 < t.step + 1 := by
    intro te Q hs
    refine ⟨AddSort_marked_before _ Q (List.Pairwise.sublist hs hp)
      (fun y hy => hst y (hs.subset hy)), ?_⟩
    intro y hy
    rcases AddSort_marked_mem _ y Q hy with h1 | h1
    · rw [h1]
      exact Nat.lt_succ_self _
    · exact Nat.lt_succ_of_lt (hst y (hs.subset h1))
  have hper : ∀ (libUID taskID : Nat) (time period rep : Int),
      (Traced.SyncTaskPer libUID taskID time period rep t).map Prod.fst =
        (TaskScheduler.SyncTaskPer libUID taskID time period rep t.sys).ts._taskLog ∧
      (Traced.SyncTaskPer libUID taskID time period rep t).Pairwise Traced.before ∧
      ∀ y ∈ Traced.SyncTaskPer libUID taskID time period rep t, y.2 < t.step + 1 := by
    intro libUID taskID time period rep
    by_cases huid : libUID < NUM_OF_MODULES
    · simp only [Traced.SyncTaskPer, TaskScheduler.SyncTaskPer, huid, if_true]
      refine ⟨?_, hins _ _ (List.Sublist.refl _)⟩
      rw [AddSort_marked_map, hq]
    · simp only [Traced.SyncTaskPer, TaskScheduler.SyncTaskPer, huid, if_false]
      exact ⟨hq, hp, hstep _ (List.Sublist.refl _)⟩
  have hrem : ∀ p : TaskEntry → Bool,
      (LinkedList.RemoveFirst.marked p t.queue).map Prod.fst =
        (LinkedList.RemoveFirst p t.sys.ts._taskLog).1 ∧
      (LinkedList.RemoveFirst.marked p t.queue).Pairwise Traced.before ∧
      ∀ y ∈ LinkedList.RemoveFirst.marked p t.queue, y.2 < t.step + 1 := by
    intro p
    refine ⟨?_, List.Pairwise.sublist (RemoveFirst_marked_sublist p _) hp,
      hstep _ (RemoveFirst_marked_sublist p _)⟩
    rw [RemoveFirst_marked_map, hq]
  cases op with
  | syncTask libUID taskID time => exact hper libUID taskID time 0 0
  | syncTaskRep libUID taskID time periodic rep period =>
    exact hper libUID taskID time (if periodic then period else 0) rep
  | syncTaskPer libUID taskID time period rep => exact hper libUID taskID time period rep
  | syncTaskEntry te =>
    show (if te._libuid < NUM_OF_MODULES then LinkedList.AddSort.marked (te, t.step) t.queue
          else t.queue).map Prod.fst = (TaskScheduler.SyncTask.entry te t.sys).ts._taskLog ∧
      (if te._libuid < NUM_OF_MODULES then LinkedList.AddSort.marked (te, t.step) t.queue
          else t.queue).Pairwise Traced.before ∧
      ∀ y ∈ (if te._libuid < NUM_OF_MODULES then LinkedList.AddSort.marked (te, t.step) t.queue
          else t.queue), y.2 < t.step + 1
    by_cases huid : te._libuid < NUM_OF_MODULES
    · simp only [TaskScheduler.SyncTask.entry, huid, if_true]
      refine ⟨?_, hins _ _ (List.Sublist.refl _)⟩
      rw [AddSort_marked_map, hq]
    · simp only [TaskScheduler.SyncTask.entry, huid, if_false]
      exact ⟨hq, hp, hstep _ (List.Sublist.refl _)⟩
  | addArgs arg argLen =>
    show ((TaskScheduler.AddArgs arg argLen t.sys).ts._taskLog.zip
          (t.queue.map Prod.snd)).map Prod.fst =
        (TaskScheduler.AddArgs arg argLen t.sys).ts._taskLog ∧
      ((TaskScheduler.AddArgs arg argLen t.sys).ts._taskLog.zip
          (t.queue.map Prod.snd)).Pairwise Traced.before ∧
      ∀ y ∈ (TaskScheduler.AddArgs arg argLen t.sys).ts._taskLog.zip (t.queue.map Prod.snd),
        y.2 < t.step + 1
    have hts : (TaskScheduler.AddArgs arg argLen t.sys).ts._taskLog.map
        (fun te => te._timestamp) = t.queue.map (fun y => y.1._timestamp) := by
      have hq2 : t.sys.ts._taskLog.map (fun te => te._timestamp) =
          t.queue.map (fun y => y.1._timestamp) := by
        rw [← hq, List.map_map]
        rfl
      unfold TaskScheduler.AddArgs
      cases t.sys.ts._lastIndex with
      | none => exact hq2
      | some i =>
        show (TaskScheduler.nodeAddArg t.sys.ts._taskLog i arg argLen).map _ = _
        rw [nodeAddArg_timestamps, hq2]
    have hlen : (TaskScheduler.AddArgs arg argLen t.sys).ts._taskLog.length =
        (t.queue.map Prod.snd).length := by
      have := congrArg List.length hts
      simpa using this
    refine ⟨List.map_fst_zip _ _ (le_of_eq hlen), ?_, ?_⟩
    · rw [before_iff_key, zip_marks (fun te => te._timestamp) t.queue _ hts, ← before_iff_key]
      exact hp
    · intro y hy
      have h2 : y.2 ∈ t.queue.map Prod.snd := (List.of_mem_zip (by
        have : y = (y.1, y.2) := rfl
        rw [this] at hy
        exact hy)).2
      obtain ⟨z, hz, hzy⟩ := List.mem_map.mp h2
      rw [← hzy]
      exact Nat.lt_succ_of_lt (hst z hz)
  | removeTask libUID taskID arg argLen => exact hrem _
  | removeTaskPID PIDarg => exact hrem _
  | popFront =>
    show t.queue.tail.map Prod.fst = (TaskScheduler.PopFront t.sys).1.ts._taskLog ∧
      t.queue.tail.Pairwise Traced.before ∧ ∀ y ∈ t.queue.tail, y.2 < t.step + 1
    refine ⟨?_, List.Pairwise.sublist (List.tail_sublist _) hp, hstep _ (List.tail_sublist _)⟩
    unfold TaskScheduler.PopFront
    cases hQ : t.queue with
    | nil =>
      rw [hQ] at hq
      simp only [List.map_nil] at hq
      rw [← hq]
      rfl
    | cons y ys =>
      rw [hQ] at hq
      simp only [List.map_cons] at hq
      rw [← hq]
      rfl
  | globalCheck beyond =>
    show (Traced.TS_GlobalCheck t).map Prod.fst = (TS_GlobalCheck beyond t.sys).1.ts._taskLog ∧
      (Traced.TS_GlobalCheck t).Pairwise Traced.before ∧
      ∀ y ∈ Traced.TS_GlobalCheck t, y.2 < t.step + 1
    unfold Traced.TS_GlobalCheck
    cases hQ : t.queue with
    | nil =>
      rw [hQ] at hq
      simp only [List.map_nil] at hq
      rw [TS_GlobalCheck_empty beyond t.sys hq.symm]
      exact ⟨hq, List.Pairwise.nil, fun y hy => absurd hy (List.not_mem_nil y)⟩
    | cons y ys =>
      have hsub : ys.Sublist t.queue := by
        rw [hQ]
        exact List.sublist_cons_self y ys
      rw [hQ] at hq
      simp only [List.map_cons] at hq
      by_cases hlt : (t.sys.msSinceStartup : Int) < y.1._timestamp
      · simp only [hlt, if_true]
        rw [TS_GlobalCheck_early beyond t.sys y.1 (ys.map Prod.fst) hq.symm hlt]
        refine ⟨by simpa using hq, by rw [← hQ]; exact hp, ?_⟩
        rw [← hQ]
        exact hstep _ (List.Sublist.refl _)
      · simp only [hlt, if_false]
        cases hv : TaskScheduler.ValidKernModule t.sys y.1._libuid with
        | none =>
          have hgc : (TS_GlobalCheck beyond t.sys).1.ts._taskLog = ys.map Prod.fst := by
            simp [TS_GlobalCheck, ← hq, hlt, hv]
          rw [hgc]
          exact ⟨rfl, List.Pairwise.sublist hsub hp, hstep _ hsub⟩
        | some r =>
          have hgc := TS_GlobalCheck_queue beyond t.sys y.1 (ys.map Prod.fst) hq.symm
            (not_lt.mp hlt) (by rw [hv]; rfl)
          rw [hgc]
          unfold TS_GlobalCheck.queueAfter
          cases hr : TS_GlobalCheck.reschedule t.sys.msSinceStartup
              (TS_GlobalCheck.countRun (TS_GlobalCheck.lateness t.sys.msSinceStartup y.1)) with
          | none => exact ⟨rfl, List.Pairwise.sublist hsub hp, hstep _ hsub⟩
          | some te3 =>
            refine ⟨?_, hins te3 ys hsub⟩
            rw [AddSort_marked_map]
  | tick => exact ⟨hq, hp, hstep _ (List.Sublist.refl _)⟩

theorem runTraced_inv (ops : List QueueOp) :
    ∀ t : Traced, t.Inv → (runTraced ops t).Inv := by
  induction ops with
  | nil =>
    intro t h
    exact h
  | cons op ops ih =>
    intro t h
    exact ih (QueueOp.applyTraced t op) (applyTraced_inv t op h)

theorem runTraced_sys (ops : List QueueOp) :
    ∀ t : Traced, (runTraced ops t).sys = runOps ops t.sys := by
  induction ops with
  | nil =>
    intro t
    rfl
  | cons op ops ih =>
    intro t
    exact ih (QueueOp.applyTraced t op)

/-- C12: after every sequence of scheduling calls (with fresh or caller-built entries),
argument appends, removals, pops, passes of the dispatch loop and ticks of the clock that
starts from an empty queue, the queue is in the order of its timestamps, and when two entries
have equal timestamps the one in front was inserted first: beside the run of the system runs
a record that marks every queued entry with the number of the operation that inserted it; the
marked queue is the queue of the system, and of two entries with equal timestamps the one in
front carries the smaller number. -/
theorem queue_order_invariant (s : Sys) (ops : List QueueOp) (hempty : s.ts._taskLog = []) :
    (runTraced ops (Traced.start s)).sys = runOps ops s ∧
    (runTraced ops (Traced.start s)).queue.map Prod.fst = (runOps ops s).ts._taskLog ∧
    (runTraced ops (Traced.start s)).queue.Pairwise
      (fun a b => a.1._timestamp ≤ b.1._timestamp ∧
        (a.1._timestamp = b.1._timestamp → a.2 < b.2)) ∧
    (runOps ops s).ts._taskLog.Pairwise (fun a b => a._timestamp ≤ b._timestamp) := by
  have hinv : (runTraced ops (Traced.start s)).Inv :=
    runTraced_inv ops (Traced.start s)
      ⟨hempty.symm, List.Pairwise.nil, fun y hy => absurd hy (List.not_mem_nil y)⟩
  have hsys : (runTraced ops (Traced.start s)).sys = runOps ops s :=
    runTraced_sys ops (Traced.start s)
  obtain ⟨h1, h2, _⟩ := hinv
  rw [hsys] at h1
  refine ⟨hsys, h1, h2, ?_⟩
  rw [← h1, List.pairwise_map]
  exact List.Pairwise.imp (fun h => h.1) h2

/-- Witness of C12: after the initialisation of `main`, a periodic task due at once, two
tasks for the time 5 (the second one built by the caller with PID 7), the pass of the loop
that runs the periodic task and puts it back for the time 5, a task for the time 2, the
removal of PID 1, a tick, a pop and a last task for the time 5. Three entries with the
timestamp 5 are left, of PIDs 7, 0 and 3, inserted by the operations 2, 3 and 8. -/
theorem queue_order_invariant_witness :
    (main.init ⟨1, by decide⟩ (fun _ k e => (k, e))).ts._taskLog = [] ∧
    (runTraced
        [QueueOp.syncTaskPer 3 0 0 5 4, QueueOp.syncTask 3 2 5,
         QueueOp.syncTaskEntry ⟨3, 1, 7, 5, 0, 0, [], ⟨0, 0, 0, 0, 0⟩⟩,
         QueueOp.globalCheck (fun _ => 0), QueueOp.syncTask 3 2 2, QueueOp.removeTaskPID 1,
         QueueOp.tick, QueueOp.popFront, QueueOp.syncTaskRep 3 1 5 true 3 10]
        (Traced.start (main.init ⟨1, by decide⟩ (fun _ k e => (k, e))))).queue.map
      (fun y => (y.1._PID, y.1._timestamp, y.2)) = [(7, 5, 2), (0, 5, 3), (3, 5, 8)] ∧
    (runTraced
        [QueueOp.syncTaskPer 3 0 0 5 4, QueueOp.syncTask 3 2 5,
         QueueOp.syncTaskEntry ⟨3, 1, 7, 5, 0, 0, [], ⟨0, 0, 0, 0, 0⟩⟩,
         QueueOp.globalCheck (fun _ => 0), QueueOp.syncTask 3 2 2, QueueOp.removeTaskPID 1,
         QueueOp.tick, QueueOp.popFront, QueueOp.syncTaskRep 3 1 5 true 3 10]
        (Traced.start (main.init ⟨1, by decide⟩ (fun _ k e => (k, e))))).queue.Pairwise
      (fun a b => a.1._timestamp ≤ b.1._timestamp ∧
        (a.1._timestamp = b.1._timestamp → a.2 < b.2)) :=
  ⟨rfl, by decide,
    (queue_order_invariant (main.init ⟨1, by decide⟩ (fun _ k e => (k, e))) _ rfl).2.2.1⟩


/-! ### C10: a periodic task among other tasks -/

theorem TSCH_step (q : List TaskEntry) (Ntasks fuel i cursor : Nat) (task : TaskEntry)
    (hi : i < Ntasks)
    (hf : q[if (i == 0) = true then 0 else cursor]? = some task) :
    STATISTICS_KerCallback.TSCH q Ntasks (fuel + 1) i cursor =
      ((i == 0, task) ::
          (STATISTICS_KerCallback.TSCH q Ntasks fuel ((i + 1) % 256)
            ((if (i == 0) = true then 0 else cursor) + 1)).1,
        (STATISTICS_KerCallback.TSCH q Ntasks fuel ((i + 1) % 256)
            ((if (i == 0) = true then 0 else cursor) + 1)).2) := by
  show (if i < Ntasks then _ else _) = _
  rw [if_pos hi]
  show (match q[if (i == 0) = true then 0 else cursor]? with
    | none => _
    | some task => _) = _
  rw [hf]
  rfl

theorem TSCH_stop (q : List TaskEntry) (Ntasks fuel i cursor : Nat) (hi : ¬ i < Ntasks) :
    STATISTICS_KerCallback.TSCH q Ntasks (fuel + 1) i cursor = ([], true) := by
  show (if i < Ntasks then _ else _) = _
  rw [if_neg hi]

/-- The loop on a queue of at most 255 tasks: it is left within `length + 1` iterations,
having reported every queued task once, in order, with a restart on the first iteration
only. -/
theorem TSCH_short_queue (q : List TaskEntry) (hlen : q.length ≤ 255) :
    ∀ (r i : Nat), i + r = q.length →
      STATISTICS_KerCallback.TSCH q q.length (r + 1) i i =
        ((q.drop i).enum.map (fun e => (i + e.1 == 0, e.2)), true) := by
  intro r
  induction r with
  | zero =>
    intro i hi
    rw [TSCH_stop q q.length 0 i i (by omega)]
    have : q.drop i = [] := List.drop_eq_nil_of_le (by omega)
    simp [this]
  | succ r ih =>
    intro i hi
    have hlt : i < q.length := by omega
    have hc : (if (i == 0) = true then 0 else i) = i := by
      by_cases h0 : i = 0 <;> simp [h0]
    have hmod : (i + 1) % 256 = i + 1 := Nat.mod_eq_of_lt (by omega)
    have hf : q[if (i == 0) = true then 0 else i]? = some q[i] := by
      rw [hc]
      exact List.getElem?_eq_getElem hlt
    rw [TSCH_step q q.length (r + 1) i i q[i] hlt hf, hc, hmod, ih (i + 1) (by omega)]
    have hdrop : q.drop i = q[i] :: q.drop (i + 1) := List.drop_eq_getElem_cons hlt
    rw [hdrop, List.enum_cons', List.map_cons, List.map_map]
    simp only [Nat.add_zero, Function.comp_def, Prod.map_fst, Prod.map_snd, id_eq,
      Nat.add_assoc, Nat.add_comm 1]

theorem queue256_getElem? (i : Nat) (h : i < 256) :
    queue256[i]? = some ⟨3, 2, i, i, 0, 0, [], ⟨0, 0, 0, 0, 0⟩⟩ := by
  simp [queue256, List.getElem?_map, List.getElem?_range h]

/-- The loop on the queue of 256 tasks, from any value of the counter: whatever the number of
iterations allowed, the loop has not been left, and iteration `k` reports task `(i + k) % 256`,
asking for a restart whenever the counter is back on 0. -/
theorem TSCH_queue256_trace :
    ∀ (fuel i cursor : Nat), i < 256 → (i = 0 ∨ cursor = i) →
      STATISTICS_KerCallback.TSCH queue256 256 fuel i cursor =
        ((List.range fuel).map (fun k =>
            ((i + k) % 256 == 0,
              (⟨3, 2, (i + k) % 256, (((i + k) % 256 : Nat) : Int), 0, 0, [], ⟨0, 0, 0, 0, 0⟩⟩ : TaskEntry))),
          false) := by
  intro fuel
  induction fuel with
  | zero =>
    intro i cursor _ _
    rfl
  | succ fuel ih =>
    intro i cursor hi hc
    have hcur : (if (i == 0) = true then 0 else cursor) = i := by
      rcases hc with h | h
      · simp [h]
      · by_cases h0 : i = 0
        · simp [h0]
        · simp [h0, h]
    have hnext : (i + 1) % 256 = 0 ∨ i + 1 = (i + 1) % 256 := by omega
    have hf : queue256[if (i == 0) = true then 0 else cursor]?
        = some ⟨3, 2, i, i, 0, 0, [], ⟨0, 0, 0, 0, 0⟩⟩ := by
      rw [hcur]
      exact queue256_getElem? i hi
    have hk : ∀ k : Nat, ((i + 1) % 256 + k) % 256 = (i + (k + 1)) % 256 := by
      intro k
      omega
    have h0 : (i + 0) % 256 = i := by
      rw [Nat.add_zero]
      exact Nat.mod_eq_of_lt hi
    rw [TSCH_step queue256 256 fuel i cursor _ hi hf, hcur,
      ih ((i + 1) % 256) (i + 1) (Nat.mod_lt _ (by decide)) hnext,
      List.range_succ_eq_map, List.map_cons, List.map_map, h0]
    simp only [hk, Function.comp_def, Nat.succ_eq_add_one]

/-- C14, the defect: the counter of the reporting loop is a `uint8_t` compared with the 32-bit
count `Ntasks` (main.cpp:89-92). With 256 tasks in the queue `NumOfTasks` is 256, the counter
goes from 255 back to 0 and stays below `Ntasks`: the loop is not left within any number of
iterations, iteration `k` reports task `k % 256` and asks for a restart from the head whenever
`k % 256 = 0`; so iteration 257, beyond the `Ntasks` iterations, calls `FetchNextTask(true)` a
second time and reports the head of the queue a second time. -/
theorem TSCH_counter_wraps_at_256 :
    TaskScheduler.NumOfTasks queue256 = 256 ∧
    (∀ fuel : Nat,
      STATISTICS_KerCallback.TSCH queue256 (TaskScheduler.NumOfTasks queue256) fuel 0 0 =
        ((List.range fuel).map (fun k =>
            (k % 256 == 0,
              (⟨3, 2, k % 256, ((k % 256 : Nat) : Int), 0, 0, [], ⟨0, 0, 0, 0, 0⟩⟩ : TaskEntry))),
          false)) ∧
    (STATISTICS_KerCallback.TSCH queue256 (TaskScheduler.NumOfTasks queue256) 257 0 0).1[0]? =
      some (true, ⟨3, 2, 0, 0, 0, 0, [], ⟨0, 0, 0, 0, 0⟩⟩) ∧
    (STATISTICS_KerCallback.TSCH queue256 (TaskScheduler.NumOfTasks queue256) 257 0 0).1[256]? =
      some (true, ⟨3, 2, 0, 0, 0, 0, [], ⟨0, 0, 0, 0, 0⟩⟩) := by
  have hn : TaskScheduler.NumOfTasks queue256 = 256 := by
    simp [TaskScheduler.NumOfTasks, queue256]
  have ht : ∀ fuel : Nat,
      STATISTICS_KerCallback.TSCH queue256 256 fuel 0 0 =
        ((List.range fuel).map (fun k =>
            (k % 256 == 0,
              (⟨3, 2, k % 256, ((k % 256 : Nat) : Int), 0, 0, [], ⟨0, 0, 0, 0, 0⟩⟩ : TaskEntry))),
          false) := by
    intro fuel
    have h := TSCH_queue256_trace fuel 0 0 (by decide) (Or.inl rfl)
    simp only [Nat.zero_add] at h
    exact h
  rw [hn]
  refine ⟨rfl, ht, ?_, ?_⟩
  · rw [ht 257, List.getElem?_map, List.getElem?_range (by decide)]
    rfl
  · rw [ht 257, List.getElem?_map, List.getElem?_range (by decide)]
    rfl

end TM4C
